import Mathlib

/-!
Verification development for the django-evolution schema-evolution core.

The mutation layer (`django_evolution/mutations.py`, plus the legacy
`django_evolution/mutation.py`) and the evolve command
(`django_evolution/management/commands/evolve.py`) are shallowly embedded
here.  Python dictionaries are rendered as association lists with
Python-dict semantics (lookup of the first matching key, insertion that
replaces an existing key in place and appends a fresh key at the end,
deletion that removes the key).  In-place mutation of a signature is
rendered by threading the updated value; an exception carries the state
the structure had when the exception was raised, since the Python code
mutates its argument in place before raising.
-/

namespace DjangoEvolution

/-- The closed set of Django field classes that the embedded code paths
distinguish.  The code only ever compares a field type against
`models.ManyToManyField`, `AutoField` and `ForeignKey`; the remaining
classes are represented explicitly so concrete signatures can be written. -/
inductive FieldType where
  | AutoField
  | CharField
  | IntegerField
  | BooleanField
  | ForeignKey
  | ManyToManyField
  deriving DecidableEq, Repr

/-- A Python value stored in a field-signature or meta dictionary.
`pyNone` is Python `None`; `ftype` is a Django field class stored under
the `field_type` key of a field signature. -/
inductive AttrValue where
  | bool (b : Bool)
  | int (n : Int)
  | str (s : String)
  | ftype (t : FieldType)
  | pyNone
  deriving DecidableEq, Repr

/-- Python truthiness of an `AttrValue`, as used by `if value:` tests in
the source (`None`, `False`, `0` and the empty string are falsy; a class
object is always truthy). -/
def truthy : AttrValue → Bool
  | .bool b => b
  | .int n => n != 0
  | .str s => s != ""
  | .ftype _ => true
  | .pyNone => false

/-- A field signature: the per-field dictionary of a model signature,
holding the `field_type` entry plus the field attributes. -/
abbrev FieldSig := List (String × AttrValue)

/-- Lookup in a Python-style dictionary rendered as an association list:
the first entry with the key wins. -/
def dlookup (k : String) : List (String × α) → Option α
  | [] => none
  | (k2, v) :: rest => if k = k2 then some v else dlookup k rest

/-- Membership test (`k in d`). -/
def dmem (k : String) (d : List (String × α)) : Bool :=
  (dlookup k d).isSome

/-- Deletion (`d.pop(k)` / `del d[k]`): removes the entry with key `k`. -/
def dpop (k : String) : List (String × α) → List (String × α)
  | [] => []
  | (k2, v) :: rest =>
    if k2 = k then dpop k rest else (k2, v) :: dpop k rest

/-- Assignment (`d[k] = v`): replaces an existing key in place, appends a
fresh key at the end — Python-dict insertion order. -/
def dinsert (k : String) (v : α) : List (String × α) → List (String × α)
  | [] => [(k, v)]
  | (k2, v2) :: rest =>
    if k = k2 then (k, v) :: rest else (k2, v2) :: dinsert k v rest

theorem dlookup_dinsert_self (k : String) (v : α) (d : List (String × α)) :
    dlookup k (dinsert k v d) = some v := by
  induction d with
  | nil => simp [dinsert, dlookup]
  | cons p rest ih =>
    by_cases h : k = p.1
    · simp [dinsert, dlookup, h]
    · simp [dinsert, dlookup, h, ih]

theorem dlookup_dinsert_ne (k k2 : String) (v : α) (d : List (String × α))
    (h : k2 ≠ k) : dlookup k2 (dinsert k v d) = dlookup k2 d := by
  induction d with
  | nil => simp [dinsert, dlookup, h]
  | cons p rest ih =>
    by_cases hk : k = p.1
    · subst hk
      simp [dinsert, dlookup, h]
    · by_cases hk2 : k2 = p.1
      · simp [dinsert, dlookup, hk, hk2]
      · simp [dinsert, dlookup, hk, hk2, ih]

theorem dlookup_dpop_self (k : String) (d : List (String × α)) :
    dlookup k (dpop k d) = none := by
  induction d with
  | nil => simp [dpop, dlookup]
  | cons p rest ih =>
    obtain ⟨k2, v⟩ := p
    by_cases h : k2 = k
    · simpa [dpop, h] using ih
    · have hne : ¬ (k = k2) := fun hk => h hk.symm
      simpa [dpop, dlookup, h, hne] using ih

theorem dlookup_dpop_ne (k k2 : String) (d : List (String × α))
    (h : k2 ≠ k) : dlookup k2 (dpop k d) = dlookup k2 d := by
  induction d with
  | nil => simp [dpop]
  | cons p rest ih =>
    obtain ⟨k3, v⟩ := p
    by_cases hp : k3 = k
    · have hne : ¬ (k2 = k3) := fun hk => h (hk.trans hp)
      simpa [dpop, dlookup, hp, hne, h] using ih
    · by_cases hk2 : k2 = k3
      · simp [dpop, dlookup, hp, hk2]
      · simpa [dpop, dlookup, hp, hk2] using ih

theorem dpop_absent (k : String) (d : List (String × α))
    (h : dlookup k d = none) : dpop k d = d := by
  induction d with
  | nil => simp [dpop]
  | cons p rest ih =>
    obtain ⟨k2, v⟩ := p
    by_cases hp : k = k2
    · simp [dlookup, hp] at h
    · have hp2 : k2 ≠ k := fun hk => hp hk.symm
      simp [dlookup, hp] at h
      simp [dpop, hp2, ih h]

/-- A model signature.  In the source this is the dictionary
`\x7b'meta': ..., 'fields': ...\x7d`; the parts of the meta dictionary the
embedded code reads or writes by name (`unique_together`) are split out,
the remaining meta entries are kept as an untouched dictionary. -/
structure ModelSig where
  fields : List (String × FieldSig)
  unique_together : List (List String)
  meta_rest : List (String × AttrValue)
  deriving DecidableEq, Repr

/-- An application signature: model name to model signature. -/
abbrev AppSig := List (String × ModelSig)

/-- A project signature: application label to application signature. -/
abbrev ProjSig := List (String × AppSig)

/-- The Python exceptions the embedded code can raise. -/
inductive Err where
  | simulationFailure (msg : String)
  | cannotSimulate (msg : String)
  | keyError (key : String)
  | attributeError (name : String)
  | typeError (msg : String)
  | valueError (msg : String)
  | evolutionException (msg : String)
  | evolutionNotImplemented (msg : String)
  | fuelExhausted
  deriving DecidableEq, Repr

/-- Modelled from the spec: `ATTRIBUTE_DEFAULTS` lives in
`django_evolution/signature.py`, which is not among the sources; the spec
documents that attributes not set take declared defaults, naming
`nullable=false` and `indexed=false`.  The relational and size attributes
default to `None`. -/
def ATTRIBUTE_DEFAULTS : List (String × AttrValue) :=
  [("null", .bool false), ("db_index", .bool false), ("unique", .bool false),
   ("primary_key", .bool false), ("max_length", .pyNone),
   ("db_column", .pyNone), ("db_table", .pyNone), ("db_tablespace", .pyNone)]

/-- Convenience: `d.get(k, default)`. -/
def dget (k : String) (d : List (String × AttrValue)) (dflt : AttrValue) : AttrValue :=
  (dlookup k d).getD dflt

/-- The `unique_together` rewrite loop shared by `DeleteField.simulate`
(mutations.py lines 317-333): every occurrence of the field name is
dropped from every tuple, keeping empty tuples. -/
def stripFieldFromUT (field_name : String) (ut : List (List String)) :
    List (List String) :=
  ut.map (fun t => t.filter (fun f => f != field_name))

/-- `DeleteField.simulate` (mutations.py lines 313-343).  The
`unique_together` rewrite happens before the primary-key check, so the
signature is updated even when the simulation then fails; a missing field
name raises a plain `KeyError` at the `primary_key` lookup on line 335
before the guarded `pop` is reached. -/
def DeleteField_simulate (model_name field_name : String)
    (app_label : String) (proj : ProjSig) : ProjSig × Option Err :=
  match dlookup app_label proj with
  | none => (proj, some (.keyError app_label))
  | some app_sig =>
    match dlookup model_name app_sig with
    | none => (proj, some (.keyError model_name))
    | some model_sig =>
      let model1 : ModelSig :=
        { model_sig with
            unique_together := stripFieldFromUT field_name model_sig.unique_together }
      let proj1 := dinsert app_label (dinsert model_name model1 app_sig) proj
      match dlookup field_name model1.fields with
      | none => (proj1, some (.keyError field_name))
      | some fs =>
        if truthy (dget "primary_key" fs (.bool false)) then
          (proj1, some (.simulationFailure "Cannot delete a primary key."))
        else
          let model2 : ModelSig := { model1 with fields := dpop field_name model1.fields }
          (dinsert app_label (dinsert model_name model2 app_sig) proj, none)

/-- `AddField.simulate` (mutations.py lines 391-412).  `field_attrs` are
the keyword arguments of the mutation (they can never contain a
`field_type` key, that name is taken by a positional parameter);
`initial` is `pyNone` when no initial value was given. -/
def AddField_simulate (model_name field_name : String)
    (field_type : AttrValue) (initial : AttrValue) (field_attrs : FieldSig)
    (app_label : String) (proj : ProjSig) : ProjSig × Option Err :=
  match dlookup app_label proj with
  | none => (proj, some (.keyError app_label))
  | some app_sig =>
    match dlookup model_name app_sig with
    | none => (proj, some (.keyError model_name))
    | some model_sig =>
      if dmem field_name model_sig.fields then
        (proj, some (.simulationFailure "Model already has a field with this name"))
      else if field_type != .ftype .ManyToManyField
          && !truthy (dget "null" field_attrs (dget "null" ATTRIBUTE_DEFAULTS .pyNone))
          && initial == .pyNone then
        (proj, some (.simulationFailure
          "Cannot create a new column without a non-null initial value."))
      else
        let new_fs : FieldSig :=
          field_attrs.foldl (fun d p => dinsert p.1 p.2 d) [("field_type", field_type)]
        let model1 : ModelSig :=
          { model_sig with fields := dinsert field_name new_fs model_sig.fields }
        (dinsert app_label (dinsert model_name model1 app_sig) proj, none)

/-- `RenameField.simulate` (mutations.py lines 489-509).  Only the field
dictionary is touched: the db_table override is set or cleared for a
many-to-many field, the db_column override otherwise, and the field is
re-keyed from the old to the new name.  The meta block is never read or
written. -/
def RenameField_simulate (model_name old_field_name new_field_name : String)
    (db_column db_table : AttrValue)
    (app_label : String) (proj : ProjSig) : ProjSig × Option Err :=
  match dlookup app_label proj with
  | none => (proj, some (.keyError app_label))
  | some app_sig =>
    match dlookup model_name app_sig with
    | none => (proj, some (.keyError model_name))
    | some model_sig =>
      match dlookup old_field_name model_sig.fields with
      | none => (proj, some (.keyError old_field_name))
      | some field_sig =>
        match dlookup "field_type" field_sig with
        | none => (proj, some (.keyError "field_type"))
        | some ft =>
          let fs1 : FieldSig :=
            if ft == .ftype .ManyToManyField then
              if truthy db_table then dinsert "db_table" db_table field_sig
              else dpop "db_table" field_sig
            else if truthy db_column then dinsert "db_column" db_column field_sig
            else dpop "db_column" field_sig
          let model1 : ModelSig :=
            { model_sig with
                fields := dinsert new_field_name fs1 (dpop old_field_name model_sig.fields) }
          (dinsert app_label (dinsert model_name model1 app_sig) proj, none)

/-- `ChangeField.simulate` (mutations.py lines 578-594).  Every changed
attribute is written into the field signature before the nullability
check, so the signature is updated even when the simulation fails.  The
`field_type` read on line 588 only happens when `null` is among the
changed attributes (Python short-circuits the conjunction). -/
def ChangeField_simulate (model_name field_name : String)
    (initial : AttrValue) (field_attrs : FieldSig)
    (app_label : String) (proj : ProjSig) : ProjSig × Option Err :=
  match dlookup app_label proj with
  | none => (proj, some (.keyError app_label))
  | some app_sig =>
    match dlookup model_name app_sig with
    | none => (proj, some (.keyError model_name))
    | some model_sig =>
      match dlookup field_name model_sig.fields with
      | none => (proj, some (.keyError field_name))
      | some field_sig =>
        let fs1 : FieldSig := field_attrs.foldl (fun d p => dinsert p.1 p.2 d) field_sig
        let model1 : ModelSig :=
          { model_sig with fields := dinsert field_name fs1 model_sig.fields }
        let proj1 := dinsert app_label (dinsert model_name model1 app_sig) proj
        match dlookup "null" field_attrs with
        | none => (proj1, none)
        | some nullv =>
          match dlookup "field_type" fs1 with
          | none => (proj1, some (.keyError "field_type"))
          | some ft =>
            if ft != .ftype .ManyToManyField && !truthy nullv && initial == .pyNone then
              (proj1, some (.simulationFailure
                "Cannot change a column to non-null without a non-null initial value."))
            else
              (proj1, none)

/-- `DeleteModel.simulate` (mutations.py lines 639-643): `del
app_sig[model_name]`. -/
def DeleteModel_simulate (model_name : String)
    (app_label : String) (proj : ProjSig) : ProjSig × Option Err :=
  match dlookup app_label proj with
  | none => (proj, some (.keyError app_label))
  | some app_sig =>
    match dlookup model_name app_sig with
    | none => (proj, some (.keyError model_name))
    | some _ =>
      (dinsert app_label (dpop model_name app_sig) proj, none)

/-- `SQLMutation.simulate` (mutations.py lines 288-295): with an update
function the function performs the signature change, otherwise
`CannotSimulate` is raised. -/
def SQLMutation_simulate (update_func : Option (String → ProjSig → ProjSig))
    (app_label : String) (proj : ProjSig) : ProjSig × Option Err :=
  match update_func with
  | some f => (f app_label proj, none)
  | none => (proj, some (.cannotSimulate "Cannot simulate SQLMutations"))

/-- `MonoBaseMutation.is_mutable` (mutations.py lines 268-276) in the
single-database configuration: `is_multi_db()` (defined outside these
sources) is false, so `is_mutable` returns `True` — the spec documents
that routing defaults to always-true when multi-store routing is not in
play. -/
def DeleteModel_is_mutable : Bool := true

/-- `DeleteApplication.simulate` (mutations.py lines 669-678).  When a
database is given and the application has at least one model, the loop
body executes `del app_sig[self.model_name]` — but `DeleteApplication`
never sets a `model_name` attribute (it subclasses `BaseMutation`, whose
constructor stores nothing), so the first iteration raises
`AttributeError`; the constructed `DeleteModel` mutation is never used.
When no database is given the method does nothing. -/
def DeleteApplication_simulate (app_label : String) (proj : ProjSig)
    (database : AttrValue) : ProjSig × Option Err :=
  if truthy database then
    match dlookup app_label proj with
    | none => (proj, some (.keyError app_label))
    | some app_sig =>
      match app_sig with
      | [] => (proj, none)
      | _ :: _ =>
        if DeleteModel_is_mutable then
          (proj, some (.attributeError "model_name"))
        else
          (proj, none)
  else
    (proj, none)

theorem dlookup_mem_keys (k : String) (d : List (String × α)) (v : α)
    (h : dlookup k d = some v) : k ∈ d.map Prod.fst := by
  induction d with
  | nil => simp [dlookup] at h
  | cons p rest ih =>
    by_cases hp : k = p.1
    · simp [hp]
    · simp [dlookup, hp] at h
      simp only [List.map_cons, List.mem_cons]
      exact Or.inr (ih h)

theorem foldl_dinsert_lookup (attrs : List (String × AttrValue))
    (seed : FieldSig) (hnd : (attrs.map Prod.fst).Nodup) (k : String) :
    dlookup k (attrs.foldl (fun d p => dinsert p.1 p.2 d) seed) =
      match dlookup k attrs with
      | some v => some v
      | none => dlookup k seed := by
  induction attrs generalizing seed with
  | nil => simp [dlookup]
  | cons p rest ih =>
    obtain ⟨k2, v⟩ := p
    simp only [List.map_cons, List.nodup_cons] at hnd
    have ihk := ih (dinsert k2 v seed) hnd.2
    by_cases hk : k = k2
    · subst hk
      have hnone : dlookup k rest = none := by
        cases hrest : dlookup k rest with
        | none => rfl
        | some w => exact absurd (dlookup_mem_keys k rest w hrest) hnd.1
      simp only [List.foldl_cons, ihk, hnone, dlookup, if_pos rfl]
      simp [dlookup_dinsert_self]
    · simp only [List.foldl_cons, ihk, dlookup, if_neg hk]
      cases hrest : dlookup k rest with
      | some w => rfl
      | none => simp [dlookup_dinsert_ne _ _ _ _ hk]

theorem map_fixes_mem {α : Type} (f : α → α) (l : List α)
    (h : l.map f = l) : ∀ t ∈ l, f t = t := by
  induction l with
  | nil => intro t ht; simp at ht
  | cons a rest ih =>
    simp only [List.map_cons, List.cons.injEq] at h
    intro t ht
    rcases List.mem_cons.mp ht with h1 | h2
    · subst h1; exact h.1
    · exact ih h.2 t h2

theorem strip_changes (field_name : String) (ut : List (List String))
    (h : ∃ t ∈ ut, field_name ∈ t) :
    stripFieldFromUT field_name ut ≠ ut := by
  rcases h with ⟨t, ht, hf⟩
  intro heq
  have hself : t.filter (fun f => f != field_name) = t :=
    map_fixes_mem _ ut heq t ht
  have : (field_name != field_name) = true :=
    List.filter_eq_self.mp hself field_name hf
  simp at this

/-- C2: deleting the field whose attributes mark it as the primary key
fails with `SimulationFailure`, and the field (with its unchanged
signature) is still present in the model's field mapping afterwards. -/
theorem deletefield_pk_fails (app_label model_name field_name : String)
    (proj : ProjSig) (app_sig : AppSig) (model_sig : ModelSig) (fs : FieldSig)
    (hA : dlookup app_label proj = some app_sig)
    (hM : dlookup model_name app_sig = some model_sig)
    (hF : dlookup field_name model_sig.fields = some fs)
    (hPK : truthy (dget "primary_key" fs (.bool false)) = true) :
    ∃ proj1,
      DeleteField_simulate model_name field_name app_label proj =
        (proj1, some (.simulationFailure "Cannot delete a primary key.")) ∧
      ∃ app1 m1, dlookup app_label proj1 = some app1 ∧
        dlookup model_name app1 = some m1 ∧
        dlookup field_name m1.fields = some fs := by
  refine ⟨dinsert app_label (dinsert model_name
      { model_sig with
          unique_together := stripFieldFromUT field_name model_sig.unique_together }
      app_sig) proj, ?_, ?_⟩
  · simp [DeleteField_simulate, hA, hM, hF, hPK]
  · refine ⟨_, _, dlookup_dinsert_self _ _ _, dlookup_dinsert_self _ _ _, ?_⟩
    simpa using hF

/-- The field signature of the primary-key field used by the C2 and C9
witnesses. -/
def fsPK : FieldSig :=
  [("field_type", .ftype .AutoField), ("primary_key", .bool true)]

/-- The model signature used by the C2 and C9 witnesses: the primary key
occurs in a unique-together tuple. -/
def msigPK : ModelSig :=
  { fields := [("id", fsPK), ("name", [("field_type", .ftype .CharField)])],
    unique_together := [["id", "name"]], meta_rest := [] }

/-- The application and project signatures used by the C2 and C9
witnesses. -/
def appPK : AppSig := [("TestModel", msigPK)]

/-- The project signature used by the C2 and C9 witnesses. -/
def projPK : ProjSig := [("testapp", appPK)]

/-- C2 witness. -/
theorem deletefield_pk_fails_witness :
    ∃ proj1,
      DeleteField_simulate "TestModel" "id" "testapp" projPK =
        (proj1, some (.simulationFailure "Cannot delete a primary key.")) ∧
      ∃ app1 m1, dlookup "testapp" proj1 = some app1 ∧
        dlookup "TestModel" app1 = some m1 ∧
        dlookup "id" m1.fields = some fsPK :=
  deletefield_pk_fails "testapp" "TestModel" "id" projPK appPK msigPK fsPK
    (by decide) (by decide) (by decide) (by decide)

/-- C9: when `DeleteField.simulate` fails on a primary key, the signature
has already been modified: the surviving model carries the stripped
`unique_together` tuples, and whenever the field occurred in some tuple
the meta block genuinely differs from what it was before the failure. -/
theorem deletefield_pk_mutates_before_failure
    (app_label model_name field_name : String)
    (proj : ProjSig) (app_sig : AppSig) (model_sig : ModelSig) (fs : FieldSig)
    (hA : dlookup app_label proj = some app_sig)
    (hM : dlookup model_name app_sig = some model_sig)
    (hF : dlookup field_name model_sig.fields = some fs)
    (hPK : truthy (dget "primary_key" fs (.bool false)) = true) :
    ∃ proj1,
      DeleteField_simulate model_name field_name app_label proj =
        (proj1, some (.simulationFailure "Cannot delete a primary key.")) ∧
      ∃ app1 m1, dlookup app_label proj1 = some app1 ∧
        dlookup model_name app1 = some m1 ∧
        m1.unique_together = stripFieldFromUT field_name model_sig.unique_together ∧
        ((∃ t ∈ model_sig.unique_together, field_name ∈ t) →
          m1.unique_together ≠ model_sig.unique_together) := by
  refine ⟨dinsert app_label (dinsert model_name
      { model_sig with
          unique_together := stripFieldFromUT field_name model_sig.unique_together }
      app_sig) proj, ?_, ?_⟩
  · simp [DeleteField_simulate, hA, hM, hF, hPK]
  · refine ⟨_, _, dlookup_dinsert_self _ _ _, dlookup_dinsert_self _ _ _, rfl, ?_⟩
    intro h
    exact strip_changes field_name model_sig.unique_together h

/-- C9 witness: the primary key occurs in a unique-together tuple, and the
failing simulate leaves the stripped tuple behind. -/
theorem deletefield_pk_mutates_before_failure_witness :
    ∃ proj1,
      DeleteField_simulate "TestModel" "id" "testapp" projPK =
        (proj1, some (.simulationFailure "Cannot delete a primary key.")) ∧
      ∃ app1 m1, dlookup "testapp" proj1 = some app1 ∧
        dlookup "TestModel" app1 = some m1 ∧
        m1.unique_together = stripFieldFromUT "id" msigPK.unique_together ∧
        ((∃ t ∈ msigPK.unique_together, "id" ∈ t) →
          m1.unique_together ≠ msigPK.unique_together) :=
  deletefield_pk_mutates_before_failure "testapp" "TestModel" "id"
    projPK appPK msigPK fsPK
    (by decide) (by decide) (by decide) (by decide)

/-- A one-model project whose model has no field named `missing`,
exercising the unknown-field path of `DeleteField.simulate`. -/
def projMissingField : ProjSig :=
  [("testapp", [("TestModel",
    { fields := [("id", [("field_type", .ftype .AutoField),
                         ("primary_key", .bool true)])],
      unique_together := [], meta_rest := [] })])]

/-- C7: deleting a field name that does not exist raises a plain
`KeyError` (from the `primary_key` lookup on line 335 of mutations.py),
not the `SimulationFailure` the guarded `pop` on lines 339-343 was meant
to produce — that handler is unreachable. -/
theorem deletefield_missing_field_keyerror :
    (DeleteField_simulate "TestModel" "missing" "testapp" projMissingField).2 =
      some (.keyError "missing") ∧
    ¬ ∃ msg, (DeleteField_simulate "TestModel" "missing" "testapp" projMissingField).2 =
      some (.simulationFailure msg) := by
  have hval : (DeleteField_simulate "TestModel" "missing" "testapp" projMissingField).2 =
      some (.keyError "missing") := by decide
  refine ⟨hval, ?_⟩
  rintro ⟨msg, hmsg⟩
  rw [hval] at hmsg
  simp at hmsg

/-- The project used for the C6 evaluation: one application owning one
model. -/
def projOneModel : ProjSig :=
  [("app1", [("Anchor",
    { fields := [("id", [("field_type", .ftype .AutoField),
                         ("primary_key", .bool true)])],
      unique_together := [], meta_rest := [] })])]

/-- C6: `DeleteApplication.simulate` with a target database and at least
one owned model does not delete the models — the first loop iteration
raises `AttributeError` (`self.model_name` does not exist on
`DeleteApplication`), and the application signature is left untouched. -/
theorem deleteapplication_simulate_attribute_error :
    DeleteApplication_simulate "app1" projOneModel (.str "default") =
      (projOneModel, some (.attributeError "model_name")) ∧
    dlookup "Anchor" ((dlookup "app1" projOneModel).getD []) ≠ none := by
  constructor
  · decide
  · decide

/-- C1: on a model that does not already have the field, AddField's
simulate fails with `SimulationFailure` exactly when the field type is
not many-to-many, the `null` attribute is falsy (explicitly or through
its declared default, `false`), and no initial value was given; in every
other case it succeeds and inserts into the field mapping a field
signature carrying the given field type and attributes.  (`field_attrs`
comes from Python keyword arguments, so its keys are distinct and can
never include `field_type` — that name is a positional parameter.) -/
theorem addfield_simulate_spec (app_label model_name field_name : String)
    (ft initial : AttrValue) (attrs : FieldSig)
    (proj : ProjSig) (app_sig : AppSig) (model_sig : ModelSig)
    (hA : dlookup app_label proj = some app_sig)
    (hM : dlookup model_name app_sig = some model_sig)
    (hF : dlookup field_name model_sig.fields = none)
    (hnd : (attrs.map Prod.fst).Nodup)
    (hft : dlookup "field_type" attrs = none) :
    ((∃ msg, (AddField_simulate model_name field_name ft initial attrs
        app_label proj).2 = some (.simulationFailure msg)) ↔
      (ft != .ftype .ManyToManyField && !truthy (dget "null" attrs (.bool false))
        && initial == .pyNone) = true) ∧
    ((ft != .ftype .ManyToManyField && !truthy (dget "null" attrs (.bool false))
        && initial == .pyNone) = false →
      ∃ new_fs,
        AddField_simulate model_name field_name ft initial attrs app_label proj =
          (dinsert app_label (dinsert model_name
            { model_sig with fields := dinsert field_name new_fs model_sig.fields }
            app_sig) proj, none) ∧
        dlookup "field_type" new_fs = some ft ∧
        (∀ k, k ≠ "field_type" → dlookup k new_fs = dlookup k attrs)) := by
  have hmem : dmem field_name model_sig.fields = false := by
    simp [dmem, hF]
  have hdflt : dget "null" ATTRIBUTE_DEFAULTS .pyNone = .bool false := by decide
  constructor
  · by_cases hc : (ft != .ftype .ManyToManyField
        && !truthy (dget "null" attrs (.bool false)) && initial == .pyNone) = true
    · simp only [hc, iff_true]
      refine ⟨"Cannot create a new column without a non-null initial value.", ?_⟩
      simp [AddField_simulate, hA, hM, hmem, hdflt, hc]
    · have hc2 : (ft != .ftype .ManyToManyField
          && !truthy (dget "null" attrs (.bool false)) && initial == .pyNone) = false :=
        Bool.not_eq_true _ ▸ (by simpa using hc)
      rw [hc2]
      simp only [Bool.false_eq_true, iff_false]
      rintro ⟨msg, hmsg⟩
      rw [show (AddField_simulate model_name field_name ft initial attrs
          app_label proj).2 = none from by
        simp [AddField_simulate, hA, hM, hmem, hdflt, hc2]] at hmsg
      cases hmsg
  · intro hc2
    refine ⟨attrs.foldl (fun d p => dinsert p.1 p.2 d) [("field_type", ft)], ?_, ?_, ?_⟩
    · simp [AddField_simulate, hA, hM, hmem, hdflt, hc2]
    · rw [foldl_dinsert_lookup attrs _ hnd "field_type", hft]
      simp [dlookup]
    · intro k hk
      rw [foldl_dinsert_lookup attrs _ hnd k]
      cases hattr : dlookup k attrs with
      | some v => rfl
      | none => simp [dlookup, hk]

/-- C1 witness: adding a non-nullable integer field without an initial
value fails; the same field with `null=True` succeeds and lands in the
field mapping. -/
theorem addfield_simulate_spec_witness :
    ((∃ msg, (AddField_simulate "TestModel" "age" (.ftype .IntegerField) .pyNone
        [] "testapp" projPK).2 = some (.simulationFailure msg)) ↔
      ((.ftype .IntegerField : AttrValue) != .ftype .ManyToManyField
        && !truthy (dget "null" [] (.bool false))
        && (.pyNone : AttrValue) == .pyNone) = true) ∧
    (((.ftype .IntegerField : AttrValue) != .ftype .ManyToManyField
        && !truthy (dget "null" [] (.bool false))
        && (.pyNone : AttrValue) == .pyNone) = false →
      ∃ new_fs,
        AddField_simulate "TestModel" "age" (.ftype .IntegerField) .pyNone
            [] "testapp" projPK =
          (dinsert "testapp" (dinsert "TestModel"
            { msigPK with fields := dinsert "age" new_fs msigPK.fields }
            appPK) projPK, none) ∧
        dlookup "field_type" new_fs = some (.ftype .IntegerField) ∧
        (∀ k, k ≠ "field_type" → dlookup k new_fs = dlookup k ([] : FieldSig))) :=
  addfield_simulate_spec "testapp" "TestModel" "age" (.ftype .IntegerField)
    .pyNone [] projPK appPK msigPK
    (by decide) (by decide) (by decide) (by decide) (by decide)

/-- C10: a successful RenameField simulate never touches the model's meta
block — every unique-together tuple (still mentioning the old field
name) and every other meta entry is exactly as before; in the field
mapping only the old and new keys change, and the moved field signature
agrees with the old one on every attribute other than the
`db_column`/`db_table` overrides. -/
theorem renamefield_preserves_meta
    (app_label model_name old_name new_name : String)
    (db_column db_table : AttrValue)
    (proj : ProjSig) (app_sig : AppSig) (model_sig : ModelSig)
    (field_sig : FieldSig) (ft : AttrValue)
    (hA : dlookup app_label proj = some app_sig)
    (hM : dlookup model_name app_sig = some model_sig)
    (hOld : dlookup old_name model_sig.fields = some field_sig)
    (hFT : dlookup "field_type" field_sig = some ft) :
    ∃ proj1 app1 m1,
      RenameField_simulate model_name old_name new_name db_column db_table
          app_label proj = (proj1, none) ∧
      dlookup app_label proj1 = some app1 ∧
      dlookup model_name app1 = some m1 ∧
      m1.unique_together = model_sig.unique_together ∧
      m1.meta_rest = model_sig.meta_rest ∧
      (∀ k, k ≠ old_name → k ≠ new_name →
        dlookup k m1.fields = dlookup k model_sig.fields) ∧
      ∃ fs1, dlookup new_name m1.fields = some fs1 ∧
        (∀ a, a ≠ "db_column" → a ≠ "db_table" →
          dlookup a fs1 = dlookup a field_sig) := by
  classical
  set fs1 : FieldSig :=
    if ft == .ftype .ManyToManyField then
      if truthy db_table then dinsert "db_table" db_table field_sig
      else dpop "db_table" field_sig
    else if truthy db_column then dinsert "db_column" db_column field_sig
    else dpop "db_column" field_sig with hfs1
  refine ⟨dinsert app_label (dinsert model_name
      { model_sig with
          fields := dinsert new_name fs1 (dpop old_name model_sig.fields) }
      app_sig) proj,
    dinsert model_name
      { model_sig with
          fields := dinsert new_name fs1 (dpop old_name model_sig.fields) }
      app_sig,
    { model_sig with
        fields := dinsert new_name fs1 (dpop old_name model_sig.fields) },
    ?_, dlookup_dinsert_self _ _ _, dlookup_dinsert_self _ _ _, rfl, rfl, ?_, ?_⟩
  · simp only [RenameField_simulate, hA, hM, hOld, hFT, hfs1]
  · intro k hko hkn
    simp only
    rw [dlookup_dinsert_ne _ _ _ _ hkn, dlookup_dpop_ne _ _ _ hko]
  · refine ⟨fs1, by simp [dlookup_dinsert_self], ?_⟩
    intro a hac hat
    rw [hfs1]
    by_cases h1 : ft == .ftype .ManyToManyField
    · by_cases h2 : truthy db_table
      · simp only [h1, h2, if_true]
        exact dlookup_dinsert_ne _ _ _ _ hat
      · simp only [h1, h2, if_true, if_false]
        exact dlookup_dpop_ne _ _ _ hat
    · by_cases h2 : truthy db_column
      · simp only [h1, h2, if_true, if_false]
        exact dlookup_dinsert_ne _ _ _ _ hac
      · simp only [h1, h2, if_false]
        exact dlookup_dpop_ne _ _ _ hac

/-- C10 witness: renaming `name` to `title` with no explicit overrides
leaves the unique-together tuple (which still names `name`) and the rest
of the meta block untouched. -/
theorem renamefield_preserves_meta_witness :
    ∃ proj1 app1 m1,
      RenameField_simulate "TestModel" "name" "title" .pyNone .pyNone
          "testapp" projPK = (proj1, none) ∧
      dlookup "testapp" proj1 = some app1 ∧
      dlookup "TestModel" app1 = some m1 ∧
      m1.unique_together = msigPK.unique_together ∧
      m1.meta_rest = msigPK.meta_rest ∧
      (∀ k, k ≠ "name" → k ≠ "title" →
        dlookup k m1.fields = dlookup k msigPK.fields) ∧
      ∃ fs1, dlookup "title" m1.fields = some fs1 ∧
        (∀ a, a ≠ "db_column" → a ≠ "db_table" →
          dlookup a fs1 = dlookup a [("field_type", AttrValue.ftype .CharField)]) :=
  renamefield_preserves_meta "testapp" "TestModel" "name" "title"
    .pyNone .pyNone projPK appPK msigPK
    [("field_type", AttrValue.ftype .CharField)] (.ftype .CharField)
    (by decide) (by decide) (by decide) (by decide)

/-- A physical statement, as an opaque logical descriptor: the concrete
DDL text is produced by the engine-specific schema backend, which the
spec treats as an external collaborator. -/
inductive Stmt where
  | raw (s : String)
  | addColumn (model field : String)
  | addM2MTable (model field : String)
  | deleteColumn (model field : String)
  | deleteM2MTable (model field : String)
  | deleteTable (table : String)
  | deleteModelTable (model : String)
  | renameColumn (model old_field new_field : String)
  | renameM2MTable (model old_field new_field : String)
  | changeAttr (model field attr : String)
  deriving DecidableEq, Repr

/-- The operation catalog of mutations.py, one constructor per mutation
class, carrying exactly the constructor arguments of the source class. -/
inductive Mutation where
  | sqlMutation (tag : String) (sql : List Stmt)
      (update_func : Option (String → ProjSig → ProjSig))
  | addField (model field : String) (ftype initial : AttrValue) (attrs : FieldSig)
  | deleteField (model field : String)
  | renameField (model old_field new_field : String) (db_column db_table : AttrValue)
  | changeField (model field : String) (initial : AttrValue) (attrs : FieldSig)
  | deleteModel (model : String)
  | deleteApplication

/-- Whether a mutation is a RenameField. -/
def Mutation.isRename : Mutation → Bool
  | .renameField _ _ _ _ _ => true
  | _ => false

/-- The effective value of a field attribute: the stored value, or the
declared default when absent. -/
def effectiveAttr (k : String) (fs : FieldSig) : AttrValue :=
  dget k fs (dget k ATTRIBUTE_DEFAULTS .pyNone)

/-- Modelled from the spec: the attribute-by-attribute comparison of the
Differ (django_evolution/diff.py is not among the sources) — a field
present in both models contributes the attributes whose effective values
(using each attribute's declared default when absent) differ. -/
def changedAttrNames (oldfs newfs : FieldSig) : List String :=
  ((oldfs.map Prod.fst) ++ (newfs.map Prod.fst)).dedup.filter
    (fun k => effectiveAttr k oldfs != effectiveAttr k newfs)

/-- The per-model part of a structural diff. -/
structure ModelDiff where
  added_fields : List (String × FieldSig)
  deleted_fields : List String
  changed_fields : List (String × List String)
  deriving Repr

/-- Modelled from the spec: the per-model Differ
(django_evolution/diff.py is not among the sources) — field-name set
difference yields added and deleted fields; fields present in both are
compared attribute by attribute. -/
def specModelDiff (old_model new_model : ModelSig) : ModelDiff :=
  { added_fields := new_model.fields.filter (fun p => !dmem p.1 old_model.fields)
    deleted_fields :=
      (old_model.fields.filter (fun p => !dmem p.1 new_model.fields)).map Prod.fst
    changed_fields :=
      (new_model.fields.filter (fun p => dmem p.1 old_model.fields)).filterMap
        (fun p =>
          match dlookup p.1 old_model.fields with
          | some oldfs =>
            let ch := changedAttrNames oldfs p.2
            if ch.isEmpty then none else some (p.1, ch)
          | none => none) }

/-- Modelled from the spec: the sentinel initial value the Hint Generator
attaches to a value-requiring added field (the doctest in
tests/signature.py renders it as `<<USER VALUE REQUIRED>>`); a field that
does not require a value carries no initial. -/
def hintInitial (ftv : AttrValue) (attrs : FieldSig) : AttrValue :=
  if ftv != .ftype .ManyToManyField && !truthy (dget "null" attrs (.bool false)) then
    .str "<<USER VALUE REQUIRED>>"
  else
    .pyNone

/-- Modelled from the spec: the per-model Hint Generator
(`Diff.evolution`, django_evolution/diff.py, not among the sources) —
one AddField per added field, then one DeleteField per deleted field,
then one ChangeField per field with changed attributes.  No rename
detection exists anywhere in this pipeline. -/
def specHintModel (model_name : String) (d : ModelDiff) : List Mutation :=
  d.added_fields.map (fun p =>
      Mutation.addField model_name p.1 (dget "field_type" p.2 .pyNone)
        (hintInitial (dget "field_type" p.2 .pyNone) p.2) (dpop "field_type" p.2))
    ++ d.deleted_fields.map (fun n => Mutation.deleteField model_name n)
    ++ d.changed_fields.map (fun p =>
        Mutation.changeField model_name p.1 .pyNone [])

theorem mem_keys_dmem (k : String) (d : List (String × α))
    (h : k ∈ d.map Prod.fst) : dmem k d = true := by
  induction d with
  | nil => simp at h
  | cons p rest ih =>
    by_cases hp : k = p.1
    · simp [dmem, dlookup, hp]
    · simp only [List.map_cons, List.mem_cons] at h
      rcases h with h1 | h2
      · exact absurd h1 hp
      · simpa [dmem, dlookup, hp] using ih h2

theorem dlookup_none_not_mem (k : String) (d : List (String × α))
    (h : dlookup k d = none) : k ∉ d.map Prod.fst := by
  intro hmem
  have := mem_keys_dmem k d hmem
  simp [dmem, h] at this

theorem dlookup_split (k : String) (d : List (String × α)) (v : α)
    (h : dlookup k d = some v) :
    ∃ pre post, d = pre ++ (k, v) :: post ∧ dlookup k pre = none := by
  induction d with
  | nil => simp [dlookup] at h
  | cons p rest ih =>
    by_cases hp : k = p.1
    · simp [dlookup, hp] at h
      refine ⟨[], rest, ?_, by simp [dlookup]⟩
      subst hp
      simp [← h]
    · simp [dlookup, hp] at h
      rcases ih h with ⟨pre, post, heq, hpre⟩
      exact ⟨p :: pre, post, by simp [heq], by simp [dlookup, hp, hpre]⟩

theorem nodup_mem_dlookup (d : List (String × α))
    (hnd : (d.map Prod.fst).Nodup) (p : String × α) (hp : p ∈ d) :
    dlookup p.1 d = some p.2 := by
  induction d with
  | nil => simp at hp
  | cons q rest ih =>
    simp only [List.map_cons, List.nodup_cons] at hnd
    rcases List.mem_cons.mp hp with h1 | h2
    · subst h1
      simp [dlookup]
    · have hne : p.1 ≠ q.1 := by
        intro he
        exact hnd.1 (he ▸ List.mem_map_of_mem Prod.fst h2)
      simp [dlookup, hne, ih hnd.2 h2]

theorem changedAttrNames_self (fs : FieldSig) : changedAttrNames fs fs = [] := by
  simp [changedAttrNames]

theorem not_mem_keys_dlookup_none (k : String) (d : List (String × α))
    (h : k ∉ d.map Prod.fst) : dlookup k d = none := by
  cases hl : dlookup k d with
  | none => rfl
  | some v => exact absurd (dlookup_mem_keys k d v hl) h

/-- The field-renaming map used to build the C3 target model: the entry
keyed `name` is re-keyed to `full_name`, every other entry is kept. -/
def renameNameEntry (p : String × FieldSig) : String × FieldSig :=
  if p.1 = "name" then ("full_name", p.2) else p

theorem map_rename_id (l : List (String × FieldSig))
    (h : "name" ∉ l.map Prod.fst) : l.map renameNameEntry = l := by
  induction l with
  | nil => rfl
  | cons p rest ih =>
    simp only [List.map_cons, List.mem_cons, not_or] at h
    have hp : p.1 ≠ "name" := fun he => h.1 he.symm
    simp [renameNameEntry, hp, ih h.2]

theorem rename_added_list (pre post : List (String × FieldSig)) (fs : FieldSig)
    (hFullPre : "full_name" ∉ pre.map Prod.fst)
    (hFullPost : "full_name" ∉ post.map Prod.fst) :
    (pre ++ ("full_name", fs) :: post).filter
      (fun p => !dmem p.1 (pre ++ ("name", fs) :: post)) = [("full_name", fs)] := by
  have h1 : pre.filter (fun p => !dmem p.1 (pre ++ ("name", fs) :: post)) = [] := by
    rw [List.filter_eq_nil_iff]
    intro p hp
    have : p.1 ∈ (pre ++ ("name", fs) :: post).map Prod.fst := by
      simp only [List.map_append, List.mem_append]
      exact Or.inl (List.mem_map_of_mem Prod.fst hp)
    simp [mem_keys_dmem _ _ this]
  have h2 : post.filter (fun p => !dmem p.1 (pre ++ ("name", fs) :: post)) = [] := by
    rw [List.filter_eq_nil_iff]
    intro p hp
    have : p.1 ∈ (pre ++ ("name", fs) :: post).map Prod.fst := by
      simp only [List.map_append, List.map_cons, List.mem_append, List.mem_cons]
      exact Or.inr (Or.inr (List.mem_map_of_mem Prod.fst hp))
    simp [mem_keys_dmem _ _ this]
  have hcond : dlookup "full_name" (pre ++ ("name", fs) :: post) = none := by
    apply not_mem_keys_dlookup_none
    simp only [List.map_append, List.map_cons, List.mem_append, List.mem_cons]
    rintro (h | h | h)
    · exact hFullPre h
    · exact absurd h (by decide)
    · exact hFullPost h
  rw [List.filter_append, List.filter_cons, h1, h2]
  simp [dmem, hcond]

theorem rename_deleted_list (pre post : List (String × FieldSig)) (fs : FieldSig)
    (hPreName : "name" ∉ pre.map Prod.fst)
    (hPostName : "name" ∉ post.map Prod.fst) :
    ((pre ++ ("name", fs) :: post).filter
      (fun p => !dmem p.1 (pre ++ ("full_name", fs) :: post))).map Prod.fst =
      ["name"] := by
  have h1 : pre.filter (fun p => !dmem p.1 (pre ++ ("full_name", fs) :: post)) = [] := by
    rw [List.filter_eq_nil_iff]
    intro p hp
    have : p.1 ∈ (pre ++ ("full_name", fs) :: post).map Prod.fst := by
      simp only [List.map_append, List.mem_append]
      exact Or.inl (List.mem_map_of_mem Prod.fst hp)
    simp [mem_keys_dmem _ _ this]
  have h2 : post.filter (fun p => !dmem p.1 (pre ++ ("full_name", fs) :: post)) = [] := by
    rw [List.filter_eq_nil_iff]
    intro p hp
    have : p.1 ∈ (pre ++ ("full_name", fs) :: post).map Prod.fst := by
      simp only [List.map_append, List.map_cons, List.mem_append, List.mem_cons]
      exact Or.inr (Or.inr (List.mem_map_of_mem Prod.fst hp))
    simp [mem_keys_dmem _ _ this]
  have hcond : dlookup "name" (pre ++ ("full_name", fs) :: post) = none := by
    apply not_mem_keys_dlookup_none
    simp only [List.map_append, List.map_cons, List.mem_append, List.mem_cons]
    rintro (h | h | h)
    · exact hPreName h
    · exact absurd h (by decide)
    · exact hPostName h
  rw [List.filter_append, List.filter_cons, h1, h2]
  simp [dmem, hcond]

theorem rename_changed_list (pre post : List (String × FieldSig)) (fs : FieldSig)
    (hnd : ((pre ++ ("name", fs) :: post).map Prod.fst).Nodup)
    (hFullPre : "full_name" ∉ pre.map Prod.fst)
    (hFullPost : "full_name" ∉ post.map Prod.fst) :
    ((pre ++ ("full_name", fs) :: post).filter
      (fun p => dmem p.1 (pre ++ ("name", fs) :: post))).filterMap
      (fun p =>
        match dlookup p.1 (pre ++ ("name", fs) :: post) with
        | some oldfs =>
          let ch := changedAttrNames oldfs p.2
          if ch.isEmpty then none else some (p.1, ch)
        | none => none) = [] := by
  rw [List.filterMap_eq_nil_iff]
  intro p hp
  have hpmem : p ∈ pre ++ ("full_name", fs) :: post := List.mem_of_mem_filter hp
  have hpold : p ∈ pre ++ ("name", fs) :: post := by
    rcases List.mem_append.mp hpmem with h | h
    · exact List.mem_append_left _ h
    · rcases List.mem_cons.mp h with h | h
      · exfalso
        have hdm := List.of_mem_filter hp
        have hcond : dlookup "full_name" (pre ++ ("name", fs) :: post) = none := by
          apply not_mem_keys_dlookup_none
          simp only [List.map_append, List.map_cons, List.mem_append, List.mem_cons]
          rintro (h2 | h2 | h2)
          · exact hFullPre h2
          · exact absurd h2 (by decide)
          · exact hFullPost h2
        rw [h] at hdm
        simp [dmem, hcond] at hdm
      · exact List.mem_append_right _ (List.mem_cons_of_mem _ h)
  have : dlookup p.1 (pre ++ ("name", fs) :: post) = some p.2 :=
    nodup_mem_dlookup _ hnd p hpold
  simp [this, changedAttrNames_self]

/-- C3: for a base model with a field `name` and a target model identical
except that `name` is re-keyed as `full_name` with the same field
signature, the hints produced from the diff are exactly one AddField for
`full_name` followed by one DeleteField for `name` — and no RenameField
appears. -/
theorem hint_rename_is_add_plus_delete (msig : ModelSig) (fs : FieldSig)
    (hnd : (msig.fields.map Prod.fst).Nodup)
    (hName : dlookup "name" msig.fields = some fs)
    (hFull : dlookup "full_name" msig.fields = none) :
    specHintModel "TestModel"
        (specModelDiff msig
          { msig with fields := msig.fields.map renameNameEntry }) =
      [Mutation.addField "TestModel" "full_name" (dget "field_type" fs .pyNone)
         (hintInitial (dget "field_type" fs .pyNone) fs) (dpop "field_type" fs),
       Mutation.deleteField "TestModel" "name"] ∧
    ∀ m ∈ specHintModel "TestModel"
        (specModelDiff msig
          { msig with fields := msig.fields.map renameNameEntry }),
      m.isRename = false := by
  rcases dlookup_split "name" msig.fields fs hName with ⟨pre, post, hsplit, hpre⟩
  have hPreName : "name" ∉ pre.map Prod.fst := dlookup_none_not_mem _ _ hpre
  have hkeys : msig.fields.map Prod.fst =
      pre.map Prod.fst ++ "name" :: post.map Prod.fst := by
    simp [hsplit]
  have hndSplit : ((pre ++ ("name", fs) :: post).map Prod.fst).Nodup := by
    rw [← hsplit]
    exact hnd
  have hPostName : "name" ∉ post.map Prod.fst := by
    have := List.Nodup.of_append_right (hkeys ▸ hnd)
    exact (List.nodup_cons.mp this).1
  have hFullKeys : "full_name" ∉ msig.fields.map Prod.fst :=
    dlookup_none_not_mem _ _ hFull
  have hFullPre : "full_name" ∉ pre.map Prod.fst := by
    intro h
    exact hFullKeys (by rw [hkeys]; exact List.mem_append_left _ h)
  have hFullPost : "full_name" ∉ post.map Prod.fst := by
    intro h
    exact hFullKeys (by
      rw [hkeys]
      exact List.mem_append_right _ (List.mem_cons_of_mem _ h))
  have hMapRn : (pre ++ ("name", fs) :: post).map renameNameEntry =
      pre ++ ("full_name", fs) :: post := by
    rw [List.map_append, List.map_cons,
      map_rename_id pre hPreName, map_rename_id post hPostName]
    rfl
  have hout : specHintModel "TestModel"
      (specModelDiff msig
        { msig with fields := msig.fields.map renameNameEntry }) =
      [Mutation.addField "TestModel" "full_name" (dget "field_type" fs .pyNone)
         (hintInitial (dget "field_type" fs .pyNone) fs) (dpop "field_type" fs),
       Mutation.deleteField "TestModel" "name"] := by
    simp only [specHintModel, specModelDiff]
    rw [hsplit, hMapRn,
      rename_added_list pre post fs hFullPre hFullPost,
      rename_deleted_list pre post fs hPreName hPostName,
      rename_changed_list pre post fs hndSplit hFullPre hFullPost]
    rfl
  refine ⟨hout, ?_⟩
  intro m hm
  rw [hout] at hm
  rcases List.mem_cons.mp hm with h | h
  · rw [h]; rfl
  · rcases List.mem_cons.mp h with h2 | h2
    · rw [h2]; rfl
    · exact absurd h2 (List.not_mem_nil m)

/-- The field signature of the `name` field in the C3 witness. -/
def fsC3 : FieldSig :=
  [("field_type", .ftype .CharField), ("max_length", .int 20)]

/-- The base model of the C3 witness: fields `name` and `age`. -/
def msigC3 : ModelSig :=
  { fields := [("name", fsC3), ("age", [("field_type", .ftype .IntegerField)])],
    unique_together := [], meta_rest := [] }

/-- C3 witness: a model with `name` (a 20-character char field) and `age`
renamed to `full_name`. -/
theorem hint_rename_is_add_plus_delete_witness :
    specHintModel "TestModel"
        (specModelDiff msigC3 { msigC3 with fields := msigC3.fields.map renameNameEntry }) =
      [Mutation.addField "TestModel" "full_name"
         (dget "field_type" fsC3 .pyNone)
         (hintInitial (dget "field_type" fsC3 .pyNone) fsC3)
         (dpop "field_type" fsC3),
       Mutation.deleteField "TestModel" "name"] ∧
    ∀ m ∈ specHintModel "TestModel"
        (specModelDiff msigC3 { msigC3 with fields := msigC3.fields.map renameNameEntry }),
      m.isRename = false :=
  hint_rename_is_add_plus_delete msigC3 fsC3
    (by decide) (by decide) (by decide)

/-- The durable state an execute run can touch: the physical database
(as the journal of statements applied to it) and the history store
(Version rows as serialized signatures, Evolution rows as
application-label/script-label pairs linked to the owning Version). -/
structure HistoryDB where
  applied : List Stmt
  versions : List String
  evolutions : List (String × String × Nat)
  deriving DecidableEq, Repr

/-- Sequential `cursor.execute` over the accumulated statements inside
the transaction (evolve.py lines 152-153).  Whether a statement raises
is database behavior, external to the core, so it is parameterized:
`stepOk journal s` says whether executing `s` against the journal
succeeds.  `none` means some statement raised. -/
def runStatements (stepOk : List Stmt → Stmt → Bool) (journal : List Stmt) :
    List Stmt → Option (List Stmt)
  | [] => some journal
  | s :: rest =>
    if stepOk journal s then runStatements stepOk (journal ++ [s]) rest
    else none

/-- The execute block of Command.handle (evolve.py lines 145-167): one
transaction wraps every accumulated statement, then the new Version row
and one Evolution row per applied script label; the first exception
rolls the whole transaction back (`transaction.rollback()`), prints the
error, and exits with status 1; otherwise everything commits and the
run continues toward exit status 0. -/
def executeEvolutions (stepOk : List Stmt → Stmt → Bool) (db : HistoryDB)
    (sql : List Stmt) (signature : String)
    (new_evolutions : List (String × String)) : HistoryDB × Nat :=
  match runStatements stepOk db.applied sql with
  | none => (db, 1)
  | some journal =>
    ({ applied := journal,
       versions := db.versions ++ [signature],
       evolutions := db.evolutions ++
         new_evolutions.map (fun e => (e.1, e.2, db.versions.length)) }, 0)

theorem runStatements_fails (stepOk : List Stmt → Stmt → Bool)
    (journal : List Stmt) (sql : List Stmt) (n : Nat)
    (hok : ∀ m s, m < n → sql.get? m = some s →
      stepOk (journal ++ sql.take m) s = true)
    (hfail : ∃ s, sql.get? n = some s ∧
      stepOk (journal ++ sql.take n) s = false) :
    runStatements stepOk journal sql = none := by
  induction sql generalizing journal n with
  | nil =>
    rcases hfail with ⟨s, hs, _⟩
    simp [List.get?] at hs
  | cons s rest ih =>
    cases n with
    | zero =>
      rcases hfail with ⟨s0, hs0, hstep⟩
      simp only [List.get?] at hs0
      cases hs0
      simp only [List.take_zero, List.append_nil] at hstep
      simp [runStatements, hstep]
    | succ k =>
      have h0 : stepOk journal s = true := by
        have := hok 0 s (Nat.succ_pos k) (by simp [List.get?])
        simpa using this
      rw [runStatements, if_pos h0]
      apply ih (journal ++ [s]) k
      · intro m t hm ht
        have := hok (m + 1) t (Nat.succ_lt_succ hm) (by simpa [List.get?] using ht)
        simpa [List.append_assoc] using this
      · rcases hfail with ⟨t, ht, hstep⟩
        refine ⟨t, by simpa [List.get?] using ht, ?_⟩
        simpa [List.append_assoc] using hstep

/-- C4: if executing the n-th accumulated statement raises (after the
earlier ones succeeded), the whole execute run leaves the database and
the history store exactly as they were — no statement effect survives
the rollback, no Version row and no Evolution row is written — and the
command exits with status 1. -/
theorem execute_statement_failure_writes_nothing
    (stepOk : List Stmt → Stmt → Bool) (db : HistoryDB) (sql : List Stmt)
    (signature : String) (new_evolutions : List (String × String))
    (n : Nat)
    (hok : ∀ m s, m < n → sql.get? m = some s →
      stepOk (db.applied ++ sql.take m) s = true)
    (hfail : ∃ s, sql.get? n = some s ∧
      stepOk (db.applied ++ sql.take n) s = false) :
    executeEvolutions stepOk db sql signature new_evolutions = (db, 1) ∧
    (executeEvolutions stepOk db sql signature new_evolutions).1.versions =
      db.versions ∧
    (executeEvolutions stepOk db sql signature new_evolutions).1.evolutions =
      db.evolutions ∧
    (executeEvolutions stepOk db sql signature new_evolutions).1.applied =
      db.applied := by
  have hrun := runStatements_fails stepOk db.applied sql n hok hfail
  refine ⟨?_, ?_, ?_, ?_⟩ <;> simp [executeEvolutions, hrun]

/-- C4 witness: a two-statement run whose second statement raises leaves
the initial (empty) history and database untouched. -/
theorem execute_statement_failure_writes_nothing_witness :
    executeEvolutions (fun _ s => s != .raw "B")
        { applied := [], versions := [], evolutions := [] }
        [.raw "A", .raw "B"] "sig-1" [("testapp", "rename-field")] =
      ({ applied := [], versions := [], evolutions := [] }, 1) := by
  refine (execute_statement_failure_writes_nothing (fun _ s => s != .raw "B")
    { applied := [], versions := [], evolutions := [] }
    [.raw "A", .raw "B"] "sig-1" [("testapp", "rename-field")] 1 ?_ ?_).1
  · intro m s hm hs
    have hm0 : m = 0 := Nat.lt_one_iff.mp hm
    subst hm0
    simp only [List.get?] at hs
    cases hs
    decide
  · exact ⟨.raw "B", by decide, by decide⟩

/-- `related_model.split('.')` with two-element tuple unpacking (e.g.
mutations.py line 32): a non-string raises `AttributeError`, a string
without exactly one dot raises `ValueError`. -/
def splitDot (v : AttrValue) : Except Err (String × String) :=
  match v with
  | .str s =>
    match s.splitOn "." with
    | [a, b] => .ok (a, b)
    | _ => .error (.valueError "unpacking related_model")
  | _ => .error (.attributeError "split")

/-- Lookup of one field signature along the project / application /
model / field path. -/
def lookupField (proj : ProjSig) (app model fname : String) : Option FieldSig :=
  match dlookup app proj with
  | none => none
  | some a =>
    match dlookup model a with
    | none => none
    | some m => dlookup fname m.fields

/-- In-place update of one field signature along the path (a no-op when
the path does not resolve, which never happens on a successful run). -/
def updField (app model fname : String) (fs : FieldSig) (proj : ProjSig) : ProjSig :=
  match dlookup app proj with
  | none => proj
  | some a =>
    match dlookup model a with
    | none => proj
    | some m =>
      dinsert app (dinsert model { m with fields := dinsert fname fs m.fields } a) proj

/-- The from-column key of the auto-created through model
(`from_<to>` for a self-referential relation, the lowered parent name
otherwise — mutations.py lines 54-61). -/
def autoThroughFromKey (pModel rn : String) : String :=
  if rn.toLower == pModel.toLower then "from_" ++ rn.toLower else pModel.toLower

/-- The to-column key of the auto-created through model (mutations.py
lines 54-61). -/
def autoThroughToKey (pModel rn : String) : String :=
  if rn.toLower == pModel.toLower then "to_" ++ rn.toLower else rn.toLower

mutual

/-- The effect of `create_field` (mutations.py lines 21-113) on the
project signature and on the attribute dictionary it is given.
`related_model` is popped from the attributes and restored only when
truthy (lines 29-40), after stub-building the related model; a
relational field without a truthy target cannot be instantiated
(`TypeError` from the Django field constructor).  In-place mutation of
the shared dictionaries is rendered by threading the updated values;
exceptions carry the state at the moment of raising.  Django ≥ 1.2 is
modelled (the auto-created through model of lines 52-101 exists), per
the code's own comments. -/
def create_field_effect (fuel : Nat) (proj : ProjSig) (fname : String)
    (ftv : AttrValue) (attrs : FieldSig) (parent : Option (String × String)) :
    Except (ProjSig × Err) (ProjSig × FieldSig) :=
  match fuel with
  | 0 => .error (proj, .fuelExhausted)
  | f + 1 =>
    match dlookup "related_model" attrs with
    | some rm =>
      if truthy rm then
        match splitDot rm with
        | .error e => .error (proj, e)
        | .ok (ra, rn) =>
          match setup_model_effect f proj ra rn true with
          | .error pe => .error pe
          | .ok proj1 =>
            m2m_through_effect f proj1 fname ftv
              (dinsert "related_model" rm (dpop "related_model" attrs)) parent rm
      else
        if ftv == .ftype .ForeignKey || ftv == .ftype .ManyToManyField then
          .error (proj, .typeError "relational field without a target model")
        else
          m2m_through_effect f proj fname ftv (dpop "related_model" attrs) parent .pyNone
    | none =>
      if ftv == .ftype .ForeignKey || ftv == .ftype .ManyToManyField then
        .error (proj, .typeError "relational field without a target model")
      else
        m2m_through_effect f proj fname ftv (dpop "related_model" attrs) parent .pyNone

/-- The `field_type == ManyToManyField and parent_model is not None`
block of `create_field` (mutations.py lines 42-109).  A given
`through_model` is looked up in the project and built as a full
MockModel; otherwise the auto-created through model is synthesized
locally — its two foreign keys stub-build the parent model and the
related model (their creation passes through `create_field` again).
The through model's own mock field objects are local dictionaries; only
the project lookups shown here can touch the project signature. -/
def m2m_through_effect (fuel : Nat) (proj : ProjSig) (fname : String)
    (ftv : AttrValue) (attrs : FieldSig) (parent : Option (String × String))
    (rmval : AttrValue) :
    Except (ProjSig × Err) (ProjSig × FieldSig) :=
  match fuel with
  | 0 => .error (proj, .fuelExhausted)
  | f + 1 =>
    match (if ftv == .ftype .ManyToManyField then parent else none) with
    | none => .ok (proj, attrs)
    | some (pApp, pModel) =>
      if truthy ((dlookup "through_model" attrs).getD .pyNone) then
        match splitDot ((dlookup "through_model" attrs).getD .pyNone) with
        | .error e => .error (proj, e)
        | .ok (ta, tn) =>
          match setup_model_effect f proj ta tn false with
          | .error pe => .error pe
          | .ok proj1 => .ok (proj1, attrs)
      else
        match splitDot rmval with
        | .error e => .error (proj, e)
        | .ok (_, rn) =>
          -- `to = field.rel.to._meta.object_name.lower()`; the
          -- from/to column names only matter for physical naming
          match local_field_visit f proj "id"
              [("field_type", .ftype .AutoField), ("primary_key", .bool true)] with
          | .error pe => .error pe
          | .ok proj1 =>
            match local_field_visit f proj1 (autoThroughFromKey pModel rn)
                [("field_type", .ftype .ForeignKey),
                 ("related_model", .str (pApp ++ "." ++ pModel)),
                 ("related_name", .str (pModel ++ "_" ++ fname ++ "+"))] with
            | .error pe => .error pe
            | .ok proj2 =>
              match local_field_visit f proj2 (autoThroughToKey pModel rn)
                  [("field_type", .ftype .ForeignKey),
                   ("related_model", rmval),
                   ("related_name", .str (pModel ++ "_" ++ fname ++ "+"))] with
              | .error pe => .error pe
              | .ok proj3 => .ok (proj3, attrs)

/-- One field of the synthesized through model: the field dictionary is
local (never part of the project), so only the `create_field` recursion
on it can touch the project.  These fields are auto/foreign-key fields,
never many-to-many, so the parent argument is irrelevant and rendered as
`none`. -/
def local_field_visit (fuel : Nat) (proj : ProjSig) (fname : String)
    (fs : FieldSig) : Except (ProjSig × Err) ProjSig :=
  match fuel with
  | 0 => .error (proj, .fuelExhausted)
  | f + 1 =>
    match dlookup "field_type" fs with
    | none => .error (proj, .keyError "field_type")
    | some ft =>
      match create_field_effect f proj fname ft (dpop "field_type" fs) none with
      | .error pe => .error pe
      | .ok (proj1, _) => .ok proj1

/-- The effect of constructing a `MockModel` over a model stored in the
project: `MockMeta.__init__` only copies the meta block, then
`setup_fields` (mutations.py lines 141-161) walks the field
dictionary. -/
def setup_model_effect (fuel : Nat) (proj : ProjSig) (app model : String)
    (stub : Bool) : Except (ProjSig × Err) ProjSig :=
  match fuel with
  | 0 => .error (proj, .fuelExhausted)
  | f + 1 =>
    match dlookup app proj with
    | none => .error (proj, .keyError app)
    | some app_sig =>
      match dlookup model app_sig with
      | none => .error (proj, .keyError model)
      | some msig => fields_fold f proj app model (msig.fields.map Prod.fst) stub

/-- The iteration of `setup_fields` over the field names (the key list is
fixed when the loop starts; the dictionaries are live, so each visit
re-reads the current state). -/
def fields_fold (fuel : Nat) (proj : ProjSig) (app model : String)
    (names : List String) (stub : Bool) : Except (ProjSig × Err) ProjSig :=
  match fuel with
  | 0 => .error (proj, .fuelExhausted)
  | f + 1 =>
    match names with
    | [] => .ok proj
    | fname :: rest =>
      match field_visit f proj app model fname stub with
      | .error pe => .error pe
      | .ok proj1 => fields_fold f proj1 app model rest stub

/-- One iteration of `setup_fields` (mutations.py lines 142-161): on a
stub only primary-key fields are built; `field_type` is popped in place,
`create_field` runs on the shared dictionary, and `field_type` is put
back (lines 144-152). -/
def field_visit (fuel : Nat) (proj : ProjSig) (app model fname : String)
    (stub : Bool) : Except (ProjSig × Err) ProjSig :=
  match fuel with
  | 0 => .error (proj, .fuelExhausted)
  | f + 1 =>
    match lookupField proj app model fname with
    | none => .error (proj, .keyError fname)
    | some fs =>
      if !stub || truthy (dget "primary_key" fs (.bool false)) then
        match dlookup "field_type" fs with
        | none => .error (proj, .keyError "field_type")
        | some ft =>
          match create_field_effect f
              (updField app model fname (dpop "field_type" fs) proj)
              fname ft (dpop "field_type" fs) (some (app, model)) with
          | .error pe => .error pe
          | .ok (proj2, attrs1) =>
            .ok (updField app model fname (dinsert "field_type" ft attrs1) proj2)
      else
        .ok proj

end

/-- `DeleteField.mutate` (mutations.py lines 345-367): builds the
MockModel, pops `field_type` from the (shared, already visited) field
signature, creates the mock field, restores `field_type`, and asks the
backend for a table drop (many-to-many) or a column drop. -/
def DeleteField_mutate (fuel : Nat) (model_name field_name app_label : String)
    (proj : ProjSig) : Except (ProjSig × Err) (ProjSig × List Stmt) :=
  match fuel with
  | 0 => .error (proj, .fuelExhausted)
  | f + 1 =>
    match dlookup app_label proj with
    | none => .error (proj, .keyError app_label)
    | some app_sig =>
      match dlookup model_name app_sig with
      | none => .error (proj, .keyError model_name)
      | some model_sig =>
        match dlookup field_name model_sig.fields with
        | none => .error (proj, .keyError field_name)
        | some _ =>
          match setup_model_effect f proj app_label model_name false with
          | .error pe => .error pe
          | .ok proj1 =>
            match lookupField proj1 app_label model_name field_name with
            | none => .error (proj1, .keyError field_name)
            | some fs =>
              match dlookup "field_type" fs with
              | none => .error (proj1, .keyError "field_type")
              | some ft =>
                match create_field_effect f
                    (updField app_label model_name field_name
                      (dpop "field_type" fs) proj1)
                    field_name ft (dpop "field_type" fs)
                    (some (app_label, model_name)) with
                | .error pe => .error pe
                | .ok (proj3, attrs1) =>
                  .ok (updField app_label model_name field_name
                      (dinsert "field_type" ft attrs1) proj3,
                    if ft == .ftype .ManyToManyField then
                      [Stmt.deleteM2MTable model_name field_name]
                    else
                      [Stmt.deleteColumn model_name field_name])

/-- `AddField.mutate` (mutations.py lines 414-466): `add_m2m_table` for a
many-to-many field (which also builds the related model as a full
MockModel), `add_column` otherwise.  `create_field` runs on the
mutation's own attribute dictionary, not on the signature. -/
def AddField_mutate (fuel : Nat) (model_name field_name : String)
    (ftv initial : AttrValue) (field_attrs : FieldSig) (app_label : String)
    (proj : ProjSig) : Except (ProjSig × Err) (ProjSig × List Stmt) :=
  match fuel with
  | 0 => .error (proj, .fuelExhausted)
  | f + 1 =>
    match dlookup app_label proj with
    | none => .error (proj, .keyError app_label)
    | some app_sig =>
      match dlookup model_name app_sig with
      | none => .error (proj, .keyError model_name)
      | some _ =>
        match setup_model_effect f proj app_label model_name false with
        | .error pe => .error pe
        | .ok proj1 =>
          match create_field_effect f proj1 field_name ftv field_attrs
              (some (app_label, model_name)) with
          | .error pe => .error pe
          | .ok (proj2, attrs1) =>
            if ftv == .ftype .ManyToManyField then
              match dlookup "related_model" attrs1 with
              | none => .error (proj2, .keyError "related_model")
              | some rm =>
                match splitDot rm with
                | .error e => .error (proj2, e)
                | .ok (ra, rn) =>
                  match dlookup ra proj2 with
                  | none => .error (proj2, .keyError ra)
                  | some rapp =>
                    match dlookup rn rapp with
                    | none => .error (proj2, .keyError rn)
                    | some _ =>
                      match setup_model_effect f proj2 ra rn false with
                      | .error pe => .error pe
                      | .ok proj3 =>
                        .ok (proj3, [Stmt.addM2MTable model_name field_name])
            else
              .ok (proj2, [Stmt.addColumn model_name field_name])

/-- `RenameField.mutate` (mutations.py lines 511-552): pops `field_type`
from the shared old field signature, shallow-copies it, applies the
table/column override to the copy, creates mock fields for both shapes,
restores `field_type` into the old signature, builds the MockModel, and
asks the backend for a table or column rename. -/
def RenameField_mutate (fuel : Nat)
    (model_name old_field_name new_field_name : String)
    (db_column db_table : AttrValue) (app_label : String)
    (proj : ProjSig) : Except (ProjSig × Err) (ProjSig × List Stmt) :=
  match fuel with
  | 0 => .error (proj, .fuelExhausted)
  | f + 1 =>
    match dlookup app_label proj with
    | none => .error (proj, .keyError app_label)
    | some app_sig =>
      match dlookup model_name app_sig with
      | none => .error (proj, .keyError model_name)
      | some model_sig =>
        match dlookup old_field_name model_sig.fields with
        | none => .error (proj, .keyError old_field_name)
        | some old_field_sig =>
          match dlookup "field_type" old_field_sig with
          | none => .error (proj, .keyError "field_type")
          | some ft =>
            match create_field_effect f
                (updField app_label model_name old_field_name
                  (dpop "field_type" old_field_sig) proj)
                old_field_name ft (dpop "field_type" old_field_sig) none with
            | .error pe => .error pe
            | .ok (proj2, attrs_old) =>
              match create_field_effect f proj2 new_field_name ft
                  (if ft == .ftype .ManyToManyField then
                    if truthy db_table then
                      dinsert "db_table" db_table (dpop "field_type" old_field_sig)
                    else dpop "db_table" (dpop "field_type" old_field_sig)
                  else if truthy db_column then
                    dinsert "db_column" db_column (dpop "field_type" old_field_sig)
                  else dpop "db_column" (dpop "field_type" old_field_sig)) none with
              | .error pe => .error pe
              | .ok (proj3, _) =>
                match setup_model_effect f
                    (updField app_label model_name old_field_name
                      (dinsert "field_type" ft attrs_old) proj3)
                    app_label model_name false with
                | .error pe => .error pe
                | .ok proj5 =>
                  .ok (proj5,
                    if ft == .ftype .ManyToManyField then
                      [Stmt.renameM2MTable model_name old_field_name new_field_name]
                    else
                      [Stmt.renameColumn model_name old_field_name new_field_name])

/-- Modelled from the spec: the set of field attributes for which the
schema backend (an external collaborator, not among the sources) offers
a `change_<attribute>` operation. -/
def changeSupported (attr : String) : Bool :=
  (["null", "max_length", "db_column", "db_table", "db_index", "unique"] :
    List String).contains attr

/-- The attribute loop of `ChangeField.mutate` (mutations.py lines
604-627): each changed attribute (compared against its stored value or
its declared default — `ATTRIBUTE_DEFAULTS[attr]` raises `KeyError` for
an attribute without a default) produces a backend statement; a missing
`change_<attr>` backend operation raises
`EvolutionNotImplementedError`. -/
def change_attrs_loop (model_name field_name : String) (fs : FieldSig) :
    List (String × AttrValue) → Except Err (List Stmt)
  | [] => .ok []
  | (k, v) :: rest =>
    match dlookup k ATTRIBUTE_DEFAULTS with
    | none => .error (.keyError k)
    | some dflt =>
      let oldv := dget k fs dflt
      if oldv != v then
        if changeSupported k then
          match change_attrs_loop model_name field_name fs rest with
          | .error e => .error e
          | .ok stmts => .ok (Stmt.changeAttr model_name field_name k :: stmts)
        else
          .error (.evolutionNotImplemented k)
      else
        change_attrs_loop model_name field_name fs rest

/-- `ChangeField.mutate` (mutations.py lines 596-629): builds the
MockModel, then walks the changed attributes reading the (shared, post
MockModel) field signature; the signature itself is never written. -/
def ChangeField_mutate (fuel : Nat) (model_name field_name : String)
    (initial : AttrValue) (field_attrs : FieldSig) (app_label : String)
    (proj : ProjSig) : Except (ProjSig × Err) (ProjSig × List Stmt) :=
  match fuel with
  | 0 => .error (proj, .fuelExhausted)
  | f + 1 =>
    match dlookup app_label proj with
    | none => .error (proj, .keyError app_label)
    | some app_sig =>
      match dlookup model_name app_sig with
      | none => .error (proj, .keyError model_name)
      | some model_sig =>
        match dlookup field_name model_sig.fields with
        | none => .error (proj, .keyError field_name)
        | some _ =>
          match setup_model_effect f proj app_label model_name false with
          | .error pe => .error pe
          | .ok proj1 =>
            match lookupField proj1 app_label model_name field_name with
            | none => .error (proj1, .keyError field_name)
            | some fs =>
              match change_attrs_loop model_name field_name fs field_attrs with
              | .error e => .error (proj1, e)
              | .ok stmts => .ok (proj1, stmts)

/-- The many-to-many scan of `DeleteModel.mutate` (mutations.py lines
653-657): one association-table drop per many-to-many field. -/
def m2m_table_drops (model_name : String) :
    List (String × FieldSig) → Except Err (List Stmt)
  | [] => .ok []
  | (fname, fs) :: rest =>
    match dlookup "field_type" fs with
    | none => .error (.keyError "field_type")
    | some ft =>
      match m2m_table_drops model_name rest with
      | .error e => .error e
      | .ok stmts =>
        if ft == .ftype .ManyToManyField then
          .ok (Stmt.deleteM2MTable model_name fname :: stmts)
        else
          .ok stmts

/-- `DeleteModel.mutate` (mutations.py lines 645-662): builds the
MockModel, drops every many-to-many association table, then the model's
own table. -/
def DeleteModel_mutate (fuel : Nat) (model_name app_label : String)
    (proj : ProjSig) : Except (ProjSig × Err) (ProjSig × List Stmt) :=
  match fuel with
  | 0 => .error (proj, .fuelExhausted)
  | f + 1 =>
    match dlookup app_label proj with
    | none => .error (proj, .keyError app_label)
    | some app_sig =>
      match dlookup model_name app_sig with
      | none => .error (proj, .keyError model_name)
      | some _ =>
        match setup_model_effect f proj app_label model_name false with
        | .error pe => .error pe
        | .ok proj1 =>
          match dlookup app_label proj1 with
          | none => .error (proj1, .keyError app_label)
          | some app1 =>
            match dlookup model_name app1 with
            | none => .error (proj1, .keyError model_name)
            | some msig1 =>
              match m2m_table_drops model_name msig1.fields with
              | .error e => .error (proj1, e)
              | .ok m2m_stmts =>
                .ok (proj1, m2m_stmts ++ [Stmt.deleteModelTable model_name])

/-- The model loop of `DeleteApplication.mutate` over the key list
captured at entry. -/
def delete_app_fold (fuel : Nat) (app_label : String) (proj : ProjSig) :
    List String → Except (ProjSig × Err) (ProjSig × List Stmt)
  | [] => .ok (proj, [])
  | model_name :: rest =>
    if DeleteModel_is_mutable then
      match DeleteModel_mutate fuel model_name app_label proj with
      | .error pe => .error pe
      | .ok (proj1, stmts) =>
        match delete_app_fold fuel app_label proj1 rest with
        | .error pe => .error pe
        | .ok (proj2, stmts2) => .ok (proj2, stmts ++ stmts2)
    else
      delete_app_fold fuel app_label proj rest

/-- `DeleteApplication.mutate` (mutations.py lines 680-694): with a
target database, every owned model contributes its `DeleteModel`
statements; with none, nothing happens. -/
def DeleteApplication_mutate (fuel : Nat) (app_label : String)
    (database : AttrValue) (proj : ProjSig) :
    Except (ProjSig × Err) (ProjSig × List Stmt) :=
  if truthy database then
    match dlookup app_label proj with
    | none => .error (proj, .keyError app_label)
    | some app_sig =>
      delete_app_fold fuel app_label proj (app_sig.map Prod.fst)
  else
    .ok (proj, [])

/-- The `mutate` dispatcher over the operation catalog.  `SQLMutation`
returns its raw statements untouched (mutations.py lines 297-299). -/
def mutateMutation (fuel : Nat) (m : Mutation) (app_label : String)
    (database : AttrValue) (proj : ProjSig) :
    Except (ProjSig × Err) (ProjSig × List Stmt) :=
  match m with
  | .sqlMutation _ sql _ => .ok (proj, sql)
  | .addField model field ftv initial attrs =>
    AddField_mutate fuel model field ftv initial attrs app_label proj
  | .deleteField model field => DeleteField_mutate fuel model field app_label proj
  | .renameField model old_f new_f dbc dbt =>
    RenameField_mutate fuel model old_f new_f dbc dbt app_label proj
  | .changeField model field initial attrs =>
    ChangeField_mutate fuel model field initial attrs app_label proj
  | .deleteModel model => DeleteModel_mutate fuel model app_label proj
  | .deleteApplication => DeleteApplication_mutate fuel app_label database proj

/-- The `simulate` dispatcher over the operation catalog. -/
def simulateMutation (m : Mutation) (app_label : String)
    (database : AttrValue) (proj : ProjSig) : ProjSig × Option Err :=
  match m with
  | .sqlMutation _ _ uf => SQLMutation_simulate uf app_label proj
  | .addField model field ftv initial attrs =>
    AddField_simulate model field ftv initial attrs app_label proj
  | .deleteField model field => DeleteField_simulate model field app_label proj
  | .renameField model old_f new_f dbc dbt =>
    RenameField_simulate model old_f new_f dbc dbt app_label proj
  | .changeField model field initial attrs =>
    ChangeField_simulate model field initial attrs app_label proj
  | .deleteModel model => DeleteModel_simulate model app_label proj
  | .deleteApplication => DeleteApplication_simulate app_label proj database

/-- Lifts a relation to `Option`, requiring agreement of presence. -/
def OptRel (r : α → α → Prop) : Option α → Option α → Prop
  | some a, some b => r a b
  | none, none => True
  | _, _ => False

/-- Python dictionary equality up to the value relation `r`: the same
keys are present and the values at each key are related.  (Python `==`
on dictionaries ignores insertion order.) -/
def DEquiv (r : α → α → Prop) (d1 d2 : List (String × α)) : Prop :=
  ∀ k, OptRel r (dlookup k d1) (dlookup k d2)

/-- Dictionary equality of field signatures. -/
def FsEquiv : FieldSig → FieldSig → Prop := DEquiv Eq

/-- Dictionary equality of model signatures: equal field dictionaries
(as dictionaries), equal meta blocks. -/
def MEquiv (m1 m2 : ModelSig) : Prop :=
  DEquiv FsEquiv m1.fields m2.fields ∧
  m1.unique_together = m2.unique_together ∧
  m1.meta_rest = m2.meta_rest

/-- Dictionary equality of application signatures. -/
def AEquiv : AppSig → AppSig → Prop := DEquiv MEquiv

/-- Dictionary equality of project signatures — the rendering of Python
`==` on the nested signature dictionaries. -/
def ProjEquiv : ProjSig → ProjSig → Prop := DEquiv AEquiv

theorem OptRel_refl {r : α → α → Prop} (hr : ∀ a, r a a) :
    ∀ o : Option α, OptRel r o o
  | some _ => hr _
  | none => trivial

theorem OptRel_trans {r : α → α → Prop}
    (hr : ∀ a b c, r a b → r b c → r a c) :
    ∀ o1 o2 o3 : Option α, OptRel r o1 o2 → OptRel r o2 o3 → OptRel r o1 o3
  | some _, some _, some _, h1, h2 => hr _ _ _ h1 h2
  | none, none, none, _, _ => trivial
  | some _, none, _, h1, _ => absurd h1 (by simp [OptRel])
  | none, some _, _, h1, _ => absurd h1 (by simp [OptRel])
  | none, none, some _, _, h2 => absurd h2 (by simp [OptRel])
  | some a, some b, none, _, h2 => absurd h2 (by simp [OptRel])

theorem DEquiv_refl {r : α → α → Prop} (hr : ∀ a, r a a)
    (d : List (String × α)) : DEquiv r d d :=
  fun _ => OptRel_refl hr _

theorem DEquiv_trans {r : α → α → Prop}
    (hr : ∀ a b c, r a b → r b c → r a c)
    {d1 d2 d3 : List (String × α)}
    (h1 : DEquiv r d1 d2) (h2 : DEquiv r d2 d3) : DEquiv r d1 d3 :=
  fun k => OptRel_trans hr _ _ _ (h1 k) (h2 k)

theorem FsEquiv_refl (d : FieldSig) : FsEquiv d d := DEquiv_refl (fun _ => rfl) d

theorem FsEquiv_trans {d1 d2 d3 : FieldSig}
    (h1 : FsEquiv d1 d2) (h2 : FsEquiv d2 d3) : FsEquiv d1 d3 :=
  DEquiv_trans (fun _ _ _ ha hb => ha.trans hb) h1 h2

theorem MEquiv_refl (m : ModelSig) : MEquiv m m :=
  ⟨DEquiv_refl FsEquiv_refl _, rfl, rfl⟩

theorem MEquiv_trans {m1 m2 m3 : ModelSig}
    (h1 : MEquiv m1 m2) (h2 : MEquiv m2 m3) : MEquiv m1 m3 :=
  ⟨@DEquiv_trans _ FsEquiv (fun _ _ _ ha hb => FsEquiv_trans ha hb) _ _ _ h1.1 h2.1,
   h1.2.1.trans h2.2.1, h1.2.2.trans h2.2.2⟩

theorem AEquiv_refl (a : AppSig) : AEquiv a a := DEquiv_refl MEquiv_refl a

theorem AEquiv_trans {a1 a2 a3 : AppSig}
    (h1 : AEquiv a1 a2) (h2 : AEquiv a2 a3) : AEquiv a1 a3 :=
  @DEquiv_trans _ MEquiv (fun _ _ _ ha hb => MEquiv_trans ha hb) _ _ _ h1 h2

theorem ProjEquiv_refl (p : ProjSig) : ProjEquiv p p := DEquiv_refl AEquiv_refl p

theorem ProjEquiv_trans {p1 p2 p3 : ProjSig}
    (h1 : ProjEquiv p1 p2) (h2 : ProjEquiv p2 p3) : ProjEquiv p1 p3 :=
  @DEquiv_trans _ AEquiv (fun _ _ _ ha hb => AEquiv_trans ha hb) _ _ _ h1 h2

theorem DEquiv_insert_pop {r : α → α → Prop} {d d2 : List (String × α)}
    {k : String} {v v2 : α}
    (h : dlookup k d = some v) (h2 : DEquiv r d2 (dpop k d)) (hv : r v2 v) :
    DEquiv r (dinsert k v2 d2) d := by
  intro k2
  by_cases hk : k2 = k
  · subst hk
    rw [dlookup_dinsert_self, h]
    exact hv
  · rw [dlookup_dinsert_ne _ _ _ _ hk]
    have := h2 k2
    rwa [dlookup_dpop_ne _ _ _ hk] at this

/-- Cleanliness of a field-attribute dictionary: a `related_model` entry,
when present, is truthy (a non-empty reference).  `create_field` silently
drops a falsy entry; cleanliness is what the frame property needs. -/
def CleanFS (fs : FieldSig) : Prop :=
  ∀ v, dlookup "related_model" fs = some v → truthy v = true

/-- Cleanliness of every field signature reachable in a project. -/
def CleanProj (proj : ProjSig) : Prop :=
  ∀ app a model m fname fs, dlookup app proj = some a →
    dlookup model a = some m → dlookup fname m.fields = some fs → CleanFS fs

/-- Decidable cleanliness check for one field signature. -/
def cleanFSb (fs : FieldSig) : Bool :=
  match dlookup "related_model" fs with
  | some v => truthy v
  | none => true

/-- Decidable cleanliness check for a whole project signature. -/
def cleanProjb (proj : ProjSig) : Bool :=
  proj.all (fun pa => pa.2.all (fun pm => pm.2.fields.all (fun pf => cleanFSb pf.2)))

theorem dlookup_mem_pair (k : String) (d : List (String × α)) (v : α)
    (h : dlookup k d = some v) : (k, v) ∈ d := by
  induction d with
  | nil => simp [dlookup] at h
  | cons p rest ih =>
    by_cases hp : k = p.1
    · simp only [dlookup, if_pos hp] at h
      have hv : p.2 = v := Option.some.inj h
      have hkv : (k, v) = p := by
        obtain ⟨p1, p2⟩ := p
        simp only at hp hv
        rw [hp, hv]
      rw [hkv]
      exact List.mem_cons_self _ _
    · simp only [dlookup, if_neg hp] at h
      exact List.mem_cons_of_mem _ (ih h)

theorem cleanFSb_clean (fs : FieldSig) (h : cleanFSb fs = true) : CleanFS fs := by
  intro v hv
  unfold cleanFSb at h
  rw [hv] at h
  exact h

theorem cleanProjb_clean (proj : ProjSig) (h : cleanProjb proj = true) :
    CleanProj proj := by
  intro app a model m fname fs hA hM hF
  unfold cleanProjb at h
  rw [List.all_eq_true] at h
  have ha := h (app, a) (dlookup_mem_pair _ _ _ hA)
  rw [List.all_eq_true] at ha
  have hm := ha (model, m) (dlookup_mem_pair _ _ _ hM)
  rw [List.all_eq_true] at hm
  have hf := hm (fname, fs) (dlookup_mem_pair _ _ _ hF)
  exact cleanFSb_clean _ hf

theorem CleanFS_of_equiv {fs1 fs2 : FieldSig} (h : FsEquiv fs1 fs2)
    (hc : CleanFS fs2) : CleanFS fs1 := by
  intro v hv
  have := h "related_model"
  rw [hv] at this
  cases h2 : dlookup "related_model" fs2 with
  | none => rw [h2] at this; exact absurd this (by simp [OptRel])
  | some w =>
    rw [h2] at this
    have hvw : v = w := this
    rw [hvw]
    exact hc w h2

theorem CleanProj_of_equiv {p q : ProjSig} (h : ProjEquiv p q)
    (hc : CleanProj q) : CleanProj p := by
  intro app a model m fname fs hA hM hF
  have h1 := h app
  rw [hA] at h1
  cases hA2 : dlookup app q with
  | none => rw [hA2] at h1; exact absurd h1 (by simp [OptRel])
  | some a2 =>
    rw [hA2] at h1
    have h2 := h1 model
    rw [hM] at h2
    cases hM2 : dlookup model a2 with
    | none => rw [hM2] at h2; exact absurd h2 (by simp [OptRel])
    | some m2 =>
      rw [hM2] at h2
      have h3 := h2.1 fname
      rw [hF] at h3
      cases hF2 : dlookup fname m2.fields with
      | none => rw [hF2] at h3; exact absurd h3 (by simp [OptRel])
      | some fs2 =>
        rw [hF2] at h3
        exact CleanFS_of_equiv h3 (hc app a2 model m2 fname fs2 hA2 hM2 hF2)

theorem CleanFS_dpop (fs : FieldSig) (k : String) (hk : k ≠ "related_model")
    (h : CleanFS fs) : CleanFS (dpop k fs) := by
  intro v hv
  rw [dlookup_dpop_ne _ _ _ (fun he => hk he.symm)] at hv
  exact h v hv

theorem CleanFS_dinsert (fs : FieldSig) (k : String) (v : AttrValue)
    (hk : k ≠ "related_model") (h : CleanFS fs) : CleanFS (dinsert k v fs) := by
  intro w hw
  rw [dlookup_dinsert_ne _ _ _ _ (fun he => hk he.symm)] at hw
  exact h w hw

theorem updField_eq (app model fname : String) (fs : FieldSig) (proj : ProjSig)
    (a : AppSig) (m : ModelSig) (hA : dlookup app proj = some a)
    (hM : dlookup model a = some m) :
    updField app model fname fs proj =
      dinsert app (dinsert model
        { m with fields := dinsert fname fs m.fields } a) proj := by
  simp [updField, hA, hM]

theorem CleanProj_updField (app model fname : String) (fs : FieldSig)
    (proj : ProjSig) (hc : CleanProj proj) (hfs : CleanFS fs) :
    CleanProj (updField app model fname fs proj) := by
  cases hA : dlookup app proj with
  | none => simpa [updField, hA] using hc
  | some a =>
    cases hM : dlookup model a with
    | none => simpa [updField, hA, hM] using hc
    | some m =>
      rw [updField_eq app model fname fs proj a m hA hM]
      intro app2 a2 model2 m2 f2 fs2 h1 h2 h3
      by_cases hk : app2 = app
      · subst hk
        rw [dlookup_dinsert_self] at h1
        cases h1
        by_cases hk2 : model2 = model
        · subst hk2
          rw [dlookup_dinsert_self] at h2
          cases h2
          by_cases hk3 : f2 = fname
          · subst hk3
            simp only at h3
            rw [dlookup_dinsert_self] at h3
            cases h3
            exact hfs
          · simp only at h3
            rw [dlookup_dinsert_ne _ _ _ _ hk3] at h3
            exact hc _ _ _ _ _ _ hA hM h3
        · rw [dlookup_dinsert_ne _ _ _ _ hk2] at h2
          exact hc _ _ _ _ _ _ hA h2 h3
      · rw [dlookup_dinsert_ne _ _ _ _ hk] at h1
        exact hc _ _ _ _ _ _ h1 h2 h3

theorem projEquiv_write_back
    {proj proj2 : ProjSig} {app model fname : String}
    {a : AppSig} {m : ModelSig} {fs v1 v2 : FieldSig}
    (hA : dlookup app proj = some a) (hM : dlookup model a = some m)
    (hf : dlookup fname m.fields = some fs)
    (hmid : ProjEquiv proj2 (updField app model fname v1 proj))
    (hval : FsEquiv v2 fs) :
    ProjEquiv (updField app model fname v2 proj2) proj := by
  rw [updField_eq app model fname v1 proj a m hA hM] at hmid
  have h1 := hmid app
  rw [dlookup_dinsert_self] at h1
  cases hA2 : dlookup app proj2 with
  | none => rw [hA2] at h1; exact absurd h1 (by simp [OptRel])
  | some a2 =>
    rw [hA2] at h1
    have h2 := h1 model
    rw [dlookup_dinsert_self] at h2
    cases hM2 : dlookup model a2 with
    | none => rw [hM2] at h2; exact absurd h2 (by simp [OptRel])
    | some m2 =>
      rw [hM2] at h2
      rw [updField_eq app model fname v2 proj2 a2 m2 hA2 hM2]
      intro k
      by_cases hk : k = app
      · subst hk
        rw [dlookup_dinsert_self, hA]
        show AEquiv _ _
        intro k2
        by_cases hk2 : k2 = model
        · subst hk2
          rw [dlookup_dinsert_self, hM]
          show MEquiv _ _
          refine ⟨?_, ?_, ?_⟩
          · intro k3
            simp only
            by_cases hk3 : k3 = fname
            · subst hk3
              rw [dlookup_dinsert_self, hf]
              exact hval
            · rw [dlookup_dinsert_ne _ _ _ _ hk3]
              have h3 := h2.1 k3
              simp only at h3
              rw [dlookup_dinsert_ne _ _ _ _ hk3] at h3
              exact h3
          · exact h2.2.1
          · exact h2.2.2
        · rw [dlookup_dinsert_ne _ _ _ _ hk2]
          have h3 := h1 k2
          rw [dlookup_dinsert_ne _ _ _ _ hk2] at h3
          exact h3
      · rw [dlookup_dinsert_ne _ _ _ _ hk]
        have h3 := hmid k
        rw [dlookup_dinsert_ne _ _ _ _ hk] at h3
        exact h3

theorem lookupField_some (proj : ProjSig) (app model fname : String) (fs : FieldSig)
    (h : lookupField proj app model fname = some fs) :
    ∃ a m, dlookup app proj = some a ∧ dlookup model a = some m ∧
      dlookup fname m.fields = some fs := by
  unfold lookupField at h
  split at h
  · cases h
  · rename_i a hA
    split at h
    · cases h
    · rename_i m hM
      exact ⟨a, m, hA, hM, h⟩

theorem str_dotted_ne_empty (a b : String) : a ++ "." ++ b ≠ "" := by
  intro he
  have hlen := congrArg String.length he
  rw [String.length_append, String.length_append] at hlen
  rw [show String.length "." = 1 from rfl, show String.length "" = 0 from rfl] at hlen
  omega

/-- The simultaneous frame property of the `create_field` / MockModel
effect functions: on a clean project (no falsy `related_model` entry
anywhere) every successful run leaves the project signature
dictionary-equal to what it was, and returns the attribute dictionary it
was given dictionary-equal to what it was. -/
def PreserveAt (f : Nat) : Prop :=
  (∀ proj fname ftv attrs parent proj2 attrs2, CleanProj proj → CleanFS attrs →
    create_field_effect f proj fname ftv attrs parent = .ok (proj2, attrs2) →
    ProjEquiv proj2 proj ∧ FsEquiv attrs2 attrs) ∧
  (∀ proj fname ftv attrs parent rmval proj2 attrs2, CleanProj proj →
    ((ftv == .ftype .ManyToManyField) = true → truthy rmval = true) →
    m2m_through_effect f proj fname ftv attrs parent rmval = .ok (proj2, attrs2) →
    ProjEquiv proj2 proj ∧ attrs2 = attrs) ∧
  (∀ proj fname fs proj2, CleanProj proj → CleanFS fs →
    local_field_visit f proj fname fs = .ok proj2 → ProjEquiv proj2 proj) ∧
  (∀ proj app model stub proj2, CleanProj proj →
    setup_model_effect f proj app model stub = .ok proj2 → ProjEquiv proj2 proj) ∧
  (∀ proj app model names stub proj2, CleanProj proj →
    fields_fold f proj app model names stub = .ok proj2 → ProjEquiv proj2 proj) ∧
  (∀ proj app model fname stub proj2, CleanProj proj →
    field_visit f proj app model fname stub = .ok proj2 → ProjEquiv proj2 proj)

theorem preserveAt_all : ∀ f, PreserveAt f := by
  intro f
  induction f with
  | zero =>
    refine ⟨?_, ?_, ?_, ?_, ?_, ?_⟩
    · intro proj fname ftv attrs parent proj2 attrs2 _ _ h
      rw [create_field_effect] at h
      cases h
    · intro proj fname ftv attrs parent rmval proj2 attrs2 _ _ h
      rw [m2m_through_effect] at h
      cases h
    · intro proj fname fs proj2 _ _ h
      rw [local_field_visit] at h
      cases h
    · intro proj app model stub proj2 _ h
      rw [setup_model_effect] at h
      cases h
    · intro proj app model names stub proj2 _ h
      rw [fields_fold] at h
      cases h
    · intro proj app model fname stub proj2 _ h
      rw [field_visit] at h
      cases h
  | succ f ih =>
    obtain ⟨ihC, ihM, ihL, ihS, ihF, ihV⟩ := ih
    have stepV : ∀ proj app model fname stub proj2, CleanProj proj →
        field_visit (f + 1) proj app model fname stub = .ok proj2 →
        ProjEquiv proj2 proj := by
      intro proj app model fname stub proj2 hcp h
      rw [field_visit] at h
      split at h
      · cases h
      · rename_i fs hlf
        rcases lookupField_some proj app model fname fs hlf with ⟨a, m, hA, hM, hf⟩
        have hcfs : CleanFS fs := hcp app a model m fname fs hA hM hf
        split at h
        · split at h
          · cases h
          · rename_i ftv hft
            split at h
            · cases h
            · rename_i pe proj3 attrs1 hcreate
              cases h
              have hcpop : CleanFS (dpop "field_type" fs) :=
                CleanFS_dpop fs _ (by decide) hcfs
              have hcp1 : CleanProj (updField app model fname
                  (dpop "field_type" fs) proj) :=
                CleanProj_updField _ _ _ _ _ hcp hcpop
              have hc := ihC _ fname ftv (dpop "field_type" fs) _ _ _ hcp1 hcpop hcreate
              exact projEquiv_write_back hA hM hf hc.1
                (DEquiv_insert_pop hft hc.2 rfl)
        · cases h
          exact ProjEquiv_refl proj
    have stepF : ∀ names proj app model stub proj2, CleanProj proj →
        fields_fold (f + 1) proj app model names stub = .ok proj2 →
        ProjEquiv proj2 proj := by
      intro names proj app model stub proj2 hcp h
      cases names with
      | nil =>
        rw [fields_fold] at h
        cases h
        exact ProjEquiv_refl proj
      | cons fname rest =>
        rw [fields_fold] at h
        split at h
        · cases h
        · rename_i proj1 hvisit
          have h1 := ihV proj app model fname stub proj1 hcp hvisit
          have hcp1 : CleanProj proj1 := CleanProj_of_equiv h1 hcp
          have h2 := ihF proj1 app model rest stub proj2 hcp1 h
          exact ProjEquiv_trans h2 h1
    have stepS : ∀ proj app model stub proj2, CleanProj proj →
        setup_model_effect (f + 1) proj app model stub = .ok proj2 →
        ProjEquiv proj2 proj := by
      intro proj app model stub proj2 hcp h
      rw [setup_model_effect] at h
      split at h
      · cases h
      · split at h
        · cases h
        · exact ihF _ _ _ _ _ _ hcp h
    have stepL : ∀ proj fname fs proj2, CleanProj proj → CleanFS fs →
        local_field_visit (f + 1) proj fname fs = .ok proj2 →
        ProjEquiv proj2 proj := by
      intro proj fname fs proj2 hcp hcfs h
      rw [local_field_visit] at h
      split at h
      · cases h
      · rename_i ft hft
        split at h
        · cases h
        · rename_i pe proj1 attrs1 hcreate
          cases h
          exact (ihC _ _ _ _ _ _ _ hcp
            (CleanFS_dpop fs _ (by decide) hcfs) hcreate).1
    have stepM : ∀ proj fname ftv attrs parent rmval proj2 attrs2, CleanProj proj →
        ((ftv == .ftype .ManyToManyField) = true → truthy rmval = true) →
        m2m_through_effect (f + 1) proj fname ftv attrs parent rmval =
          .ok (proj2, attrs2) →
        ProjEquiv proj2 proj ∧ attrs2 = attrs := by
      intro proj fname ftv attrs parent rmval proj2 attrs2 hcp hrm h
      rw [m2m_through_effect] at h
      split at h
      · -- not a parented many-to-many field: nothing happens
        cases h
        exact ⟨ProjEquiv_refl proj, rfl⟩
      · -- many-to-many with a parent model
        rename_i pApp pModel hdisp
        split at h
        · -- explicit through model
          split at h
          · cases h
          · rename_i ta tn hsd
            split at h
            · cases h
            · rename_i proj1 hsetup
              cases h
              exact ⟨ihS _ _ _ _ _ hcp hsetup, rfl⟩
        · -- auto-created through model
          have hM2M : (ftv == AttrValue.ftype .ManyToManyField) = true := by
            by_cases hb : (ftv == AttrValue.ftype .ManyToManyField) = true
            · exact hb
            · rw [if_neg hb] at hdisp
              cases hdisp
          split at h
          · cases h
          · rename_i ra rn hsd
            split at h
            · cases h
            · rename_i proj1 hl1
              split at h
              · cases h
              · rename_i proj2x hl2
                split at h
                · cases h
                · rename_i proj3x hl3
                  cases h
                  have hc1 : CleanFS
                      [("field_type", AttrValue.ftype .AutoField),
                       ("primary_key", .bool true)] := by
                    intro v hv
                    simp [dlookup] at hv
                  have h1 := ihL _ _ _ _ hcp hc1 hl1
                  have hcp1 := CleanProj_of_equiv h1 hcp
                  have hc2 : CleanFS
                      [("field_type", AttrValue.ftype .ForeignKey),
                       ("related_model", .str (pApp ++ "." ++ pModel)),
                       ("related_name",
                         .str (pModel ++ "_" ++ fname ++ "+"))] := by
                    intro v hv
                    simp [dlookup] at hv
                    subst hv
                    simp only [truthy, bne_iff_ne, ne_eq, decide_eq_true_eq]
                    exact str_dotted_ne_empty pApp pModel
                  have h2 := ihL _ _ _ _ hcp1 hc2 hl2
                  have hcp2 := CleanProj_of_equiv h2 hcp1
                  have hc3 : CleanFS
                      [("field_type", AttrValue.ftype .ForeignKey),
                       ("related_model", rmval),
                       ("related_name",
                         .str (pModel ++ "_" ++ fname ++ "+"))] := by
                    intro v hv
                    simp [dlookup] at hv
                    subst hv
                    exact hrm hM2M
                  have h3 := ihL _ _ _ _ hcp2 hc3 hl3
                  exact ⟨ProjEquiv_trans h3 (ProjEquiv_trans h2 h1), rfl⟩
    have stepC : ∀ proj fname ftv attrs parent proj2 attrs2, CleanProj proj →
        CleanFS attrs →
        create_field_effect (f + 1) proj fname ftv attrs parent =
          .ok (proj2, attrs2) →
        ProjEquiv proj2 proj ∧ FsEquiv attrs2 attrs := by
      intro proj fname ftv attrs parent proj2 attrs2 hcp hca h
      rw [create_field_effect] at h
      split at h
      · -- related_model present
        rename_i rm hrm
        split at h
        · -- truthy target: stub-build it, restore the key
          split at h
          · cases h
          · rename_i ra rn hsd
            split at h
            · cases h
            · rename_i proj1 hsetup
              have h1 := ihS _ _ _ _ _ hcp hsetup
              have hcp1 := CleanProj_of_equiv h1 hcp
              rename_i htr _ _
              have hm := ihM _ _ _ _ _ _ _ _ hcp1 (fun _ => hca rm hrm) h
              refine ⟨ProjEquiv_trans hm.1 h1, ?_⟩
              rw [hm.2]
              exact DEquiv_insert_pop hrm
                (DEquiv_refl (fun _ => rfl) _) rfl
        · -- falsy target: impossible on a clean dictionary
          rename_i hfalse
          exact absurd (hca rm hrm) (by simpa using hfalse)
      · -- no related_model entry
        rename_i hrm
        split at h
        · cases h
        · rename_i hnotrel
          have hm := ihM _ _ _ _ _ _ _ _ hcp
            (fun hb => absurd (Or.inr hb)
              (by simpa using hnotrel)) h
          refine ⟨hm.1, ?_⟩
          rw [hm.2, dpop_absent _ _ hrm]
          exact DEquiv_refl (fun _ => rfl) _
    exact ⟨stepC, stepM, stepL, stepS,
      fun proj app model names stub proj2 => stepF names proj app model stub proj2,
      stepV⟩

theorem DeleteField_mutate_preserves (fuel : Nat)
    (model_name field_name app_label : String) (proj proj2 : ProjSig)
    (stmts : List Stmt) (hcp : CleanProj proj)
    (h : DeleteField_mutate fuel model_name field_name app_label proj =
      .ok (proj2, stmts)) :
    ProjEquiv proj2 proj := by
  match fuel with
  | 0 => rw [DeleteField_mutate] at h; cases h
  | f + 1 =>
    obtain ⟨pC, pM, pL, pS, pF, pV⟩ := preserveAt_all f
    rw [DeleteField_mutate] at h
    split at h
    · cases h
    split at h
    · cases h
    split at h
    · cases h
    split at h
    · cases h
    rename_i proj1 hsetup
    have h1 := pS _ _ _ _ _ hcp hsetup
    have hcp1 := CleanProj_of_equiv h1 hcp
    split at h
    · cases h
    rename_i fs hlf
    rcases lookupField_some _ _ _ _ _ hlf with ⟨a1, m1, hA1, hM1, hf1⟩
    have hcfs := hcp1 _ _ _ _ _ _ hA1 hM1 hf1
    split at h
    · cases h
    rename_i ft hft
    split at h
    · cases h
    rename_i proj3 attrs1 hcreate
    cases h
    have hcpop := CleanFS_dpop fs "field_type" (by decide) hcfs
    have hcpU : CleanProj (updField app_label model_name field_name
        (dpop "field_type" fs) proj1) :=
      CleanProj_updField _ _ _ _ _ hcp1 hcpop
    have hc := pC _ _ _ _ _ _ _ hcpU hcpop hcreate
    exact ProjEquiv_trans
      (projEquiv_write_back hA1 hM1 hf1 hc.1 (DEquiv_insert_pop hft hc.2 rfl)) h1

theorem AddField_mutate_preserves (fuel : Nat)
    (model_name field_name : String) (ftv initial : AttrValue)
    (field_attrs : FieldSig) (app_label : String) (proj proj2 : ProjSig)
    (stmts : List Stmt) (hcp : CleanProj proj) (hca : CleanFS field_attrs)
    (h : AddField_mutate fuel model_name field_name ftv initial field_attrs
      app_label proj = .ok (proj2, stmts)) :
    ProjEquiv proj2 proj := by
  match fuel with
  | 0 => rw [AddField_mutate] at h; cases h
  | f + 1 =>
    obtain ⟨pC, pM, pL, pS, pF, pV⟩ := preserveAt_all f
    rw [AddField_mutate] at h
    split at h
    · cases h
    split at h
    · cases h
    split at h
    · cases h
    rename_i proj1 hsetup
    have h1 := pS _ _ _ _ _ hcp hsetup
    have hcp1 := CleanProj_of_equiv h1 hcp
    split at h
    · cases h
    rename_i proj2x attrs1 hcreate
    have hc := pC _ _ _ _ _ _ _ hcp1 hca hcreate
    have h2 : ProjEquiv proj2x proj := ProjEquiv_trans hc.1 h1
    have hcp2 := CleanProj_of_equiv h2 hcp
    split at h
    · -- many-to-many: the related model is built as a full MockModel
      split at h
      · cases h
      split at h
      · cases h
      split at h
      · cases h
      split at h
      · cases h
      split at h
      · cases h
      rename_i proj3 hsetup2
      cases h
      exact ProjEquiv_trans (pS _ _ _ _ _ hcp2 hsetup2) h2
    · cases h
      exact h2

theorem RenameField_mutate_preserves (fuel : Nat)
    (model_name old_field_name new_field_name : String)
    (db_column db_table : AttrValue) (app_label : String)
    (proj proj2 : ProjSig) (stmts : List Stmt) (hcp : CleanProj proj)
    (h : RenameField_mutate fuel model_name old_field_name new_field_name
      db_column db_table app_label proj = .ok (proj2, stmts)) :
    ProjEquiv proj2 proj := by
  match fuel with
  | 0 => rw [RenameField_mutate] at h; cases h
  | f + 1 =>
    obtain ⟨pC, pM, pL, pS, pF, pV⟩ := preserveAt_all f
    rw [RenameField_mutate] at h
    split at h
    · cases h
    rename_i app_sig hA0
    split at h
    · cases h
    rename_i model_sig hM0
    split at h
    · cases h
    rename_i old_fs hf0
    split at h
    · cases h
    rename_i ft hft
    have hcfs : CleanFS old_fs := hcp _ _ _ _ _ _ hA0 hM0 hf0
    have hcpop := CleanFS_dpop old_fs "field_type" (by decide) hcfs
    have hcpU : CleanProj (updField app_label model_name old_field_name
        (dpop "field_type" old_fs) proj) :=
      CleanProj_updField _ _ _ _ _ hcp hcpop
    split at h
    · cases h
    rename_i proj2a attrs_old hcreate1
    have hc1 := pC _ _ _ _ _ _ _ hcpU hcpop hcreate1
    have hcp2 : CleanProj proj2a :=
      CleanProj_of_equiv hc1.1 hcpU
    split at h
    · cases h
    rename_i proj3 attrs_new hcreate2
    have hcnew : CleanFS
        (if ft == .ftype .ManyToManyField then
          if truthy db_table then
            dinsert "db_table" db_table (dpop "field_type" old_fs)
          else dpop "db_table" (dpop "field_type" old_fs)
        else if truthy db_column then
          dinsert "db_column" db_column (dpop "field_type" old_fs)
        else dpop "db_column" (dpop "field_type" old_fs)) := by
      by_cases h1 : (ft == AttrValue.ftype .ManyToManyField) = true
      · by_cases h2 : truthy db_table = true
        · rw [if_pos h1, if_pos h2]
          exact CleanFS_dinsert _ _ _ (by decide) hcpop
        · rw [if_pos h1, if_neg h2]
          exact CleanFS_dpop _ _ (by decide) hcpop
      · by_cases h2 : truthy db_column = true
        · rw [if_neg h1, if_pos h2]
          exact CleanFS_dinsert _ _ _ (by decide) hcpop
        · rw [if_neg h1, if_neg h2]
          exact CleanFS_dpop _ _ (by decide) hcpop
    have hc2 := pC _ _ _ _ _ _ _ hcp2 hcnew hcreate2
    split at h
    · cases h
    rename_i proj5 hsetup
    cases h
    have hmid : ProjEquiv proj3
        (updField app_label model_name old_field_name
          (dpop "field_type" old_fs) proj) :=
      ProjEquiv_trans hc2.1 hc1.1
    have h4 : ProjEquiv
        (updField app_label model_name old_field_name
          (dinsert "field_type" ft attrs_old) proj3) proj :=
      projEquiv_write_back hA0 hM0 hf0 hmid (DEquiv_insert_pop hft hc1.2 rfl)
    have hcp4 := CleanProj_of_equiv h4 hcp
    exact ProjEquiv_trans (pS _ _ _ _ _ hcp4 hsetup) h4

theorem ChangeField_mutate_preserves (fuel : Nat)
    (model_name field_name : String) (initial : AttrValue)
    (field_attrs : FieldSig) (app_label : String) (proj proj2 : ProjSig)
    (stmts : List Stmt) (hcp : CleanProj proj)
    (h : ChangeField_mutate fuel model_name field_name initial field_attrs
      app_label proj = .ok (proj2, stmts)) :
    ProjEquiv proj2 proj := by
  match fuel with
  | 0 => rw [ChangeField_mutate] at h; cases h
  | f + 1 =>
    obtain ⟨pC, pM, pL, pS, pF, pV⟩ := preserveAt_all f
    rw [ChangeField_mutate] at h
    split at h
    · cases h
    split at h
    · cases h
    split at h
    · cases h
    split at h
    · cases h
    rename_i proj1 hsetup
    split at h
    · cases h
    split at h
    · cases h
    cases h
    exact pS _ _ _ _ _ hcp hsetup

theorem DeleteModel_mutate_preserves (fuel : Nat)
    (model_name app_label : String) (proj proj2 : ProjSig)
    (stmts : List Stmt) (hcp : CleanProj proj)
    (h : DeleteModel_mutate fuel model_name app_label proj =
      .ok (proj2, stmts)) :
    ProjEquiv proj2 proj := by
  match fuel with
  | 0 => rw [DeleteModel_mutate] at h; cases h
  | f + 1 =>
    obtain ⟨pC, pM, pL, pS, pF, pV⟩ := preserveAt_all f
    rw [DeleteModel_mutate] at h
    split at h
    · cases h
    split at h
    · cases h
    split at h
    · cases h
    rename_i proj1 hsetup
    split at h
    · cases h
    split at h
    · cases h
    split at h
    · cases h
    cases h
    exact pS _ _ _ _ _ hcp hsetup

theorem delete_app_fold_preserves (names : List String) (fuel : Nat)
    (app_label : String) (proj proj2 : ProjSig) (stmts : List Stmt)
    (hcp : CleanProj proj)
    (h : delete_app_fold fuel app_label proj names = .ok (proj2, stmts)) :
    ProjEquiv proj2 proj := by
  induction names generalizing proj proj2 stmts with
  | nil =>
    rw [delete_app_fold] at h
    cases h
    exact ProjEquiv_refl proj
  | cons model_name rest ih =>
    rw [delete_app_fold] at h
    rw [if_pos (by decide : DeleteModel_is_mutable = true)] at h
    split at h
    · cases h
    rename_i proj1 stmts1 hdm
    split at h
    · cases h
    rename_i proj2a stmts2 hrest
    cases h
    have h1 := DeleteModel_mutate_preserves fuel model_name app_label
      proj proj1 stmts1 hcp hdm
    have hcp1 := CleanProj_of_equiv h1 hcp
    exact ProjEquiv_trans (ih proj1 _ _ hcp1 hrest) h1

theorem DeleteApplication_mutate_preserves (fuel : Nat)
    (app_label : String) (database : AttrValue) (proj proj2 : ProjSig)
    (stmts : List Stmt) (hcp : CleanProj proj)
    (h : DeleteApplication_mutate fuel app_label database proj =
      .ok (proj2, stmts)) :
    ProjEquiv proj2 proj := by
  rw [DeleteApplication_mutate] at h
  split at h
  · split at h
    · cases h
    · exact delete_app_fold_preserves _ _ _ _ _ _ hcp h
  · cases h
    exact ProjEquiv_refl proj

/-- Cleanliness of the payload a mutation itself carries: AddField's
keyword attributes pass through `create_field`, so they must not carry a
falsy `related_model` either.  Every other variant carries no attribute
dictionary that `create_field` consumes. -/
def cleanMutb : Mutation → Bool
  | .addField _ _ _ _ attrs => cleanFSb attrs
  | _ => true

theorem mutateMutation_preserves (fuel : Nat) (m : Mutation)
    (app_label : String) (database : AttrValue) (proj proj2 : ProjSig)
    (stmts : List Stmt) (hcp : CleanProj proj) (hcm : cleanMutb m = true)
    (h : mutateMutation fuel m app_label database proj = .ok (proj2, stmts)) :
    ProjEquiv proj2 proj := by
  cases m with
  | sqlMutation tag sql uf =>
    rw [mutateMutation] at h
    cases h
    exact ProjEquiv_refl proj
  | addField model field ftv initial attrs =>
    exact AddField_mutate_preserves fuel model field ftv initial attrs
      app_label proj proj2 stmts hcp (cleanFSb_clean _ hcm) h
  | deleteField model field =>
    exact DeleteField_mutate_preserves fuel model field app_label
      proj proj2 stmts hcp h
  | renameField model old_f new_f dbc dbt =>
    exact RenameField_mutate_preserves fuel model old_f new_f dbc dbt
      app_label proj proj2 stmts hcp h
  | changeField model field initial attrs =>
    exact ChangeField_mutate_preserves fuel model field initial attrs
      app_label proj proj2 stmts hcp h
  | deleteModel model =>
    exact DeleteModel_mutate_preserves fuel model app_label
      proj proj2 stmts hcp h
  | deleteApplication =>
    exact DeleteApplication_mutate_preserves fuel app_label database
      proj proj2 stmts hcp h

/-- One observable call of the evolve mutation loop. -/
inductive TraceEv where
  | mutateCall (i : Nat)
  | simulateCall (i : Nat)
  deriving DecidableEq, Repr

/-- The running state of the evolve mutation loop (evolve.py lines
59-94): the in-place mutated baseline signature, the accumulated SQL,
the `simulated` flag, the observable call trace, and the first
uncaught-or-SimulationFailure exception. -/
structure LoopState where
  proj : ProjSig
  sql : List Stmt
  simulated : Bool
  trace : List TraceEv
  failure : Option Err

/-- One iteration of the mutation loop (evolve.py lines 87-92): first
`sql.extend(mutation.mutate(app_label, database_sig))`, then
`mutation.simulate(app_label, database_sig)` — `mutate` before
`simulate`, both against the same in-place signature, with no target
database argument.  `CannotSimulate` clears the `simulated` flag and the
loop continues; any other exception stops the run. -/
def loopStep (fuel : Nat) (app_label : String) (i : Nat) (m : Mutation)
    (st : LoopState) : LoopState :=
  match mutateMutation fuel m app_label .pyNone st.proj with
  | .error (p, e) =>
    { st with proj := p, trace := st.trace ++ [.mutateCall i], failure := some e }
  | .ok (p, stmts) =>
    match simulateMutation m app_label .pyNone p with
    | (p2, some (.cannotSimulate _)) =>
      { st with proj := p2, sql := st.sql ++ stmts, simulated := false,
                trace := st.trace ++ [.mutateCall i, .simulateCall i] }
    | (p2, some e) =>
      { st with proj := p2, sql := st.sql ++ stmts,
                trace := st.trace ++ [.mutateCall i, .simulateCall i],
                failure := some e }
    | (p2, none) =>
      { st with proj := p2, sql := st.sql ++ stmts,
                trace := st.trace ++ [.mutateCall i, .simulateCall i] }

/-- The mutation loop over one application's mutation list. -/
def appLoop (fuel : Nat) (app_label : String) (muts : List Mutation)
    (i : Nat) (st : LoopState) : LoopState :=
  match muts with
  | [] => st
  | m :: rest =>
    match (loopStep fuel app_label i m st).failure with
    | some _ => loopStep fuel app_label i m st
    | none => appLoop fuel app_label rest (i + 1) (loopStep fuel app_label i m st)

/-- Per-application bookkeeping of Command.handle: whether any
application required an evolution, and which evolution labels would be
recorded. -/
structure RunState where
  loop : LoopState
  evolution_required : Bool
  new_evolutions : List (String × String)

/-- The application loop of Command.handle (evolve.py lines 76-94): an
application with no mutations is skipped; otherwise the mutation loop
runs and, when it completes, the application's unapplied evolution
labels are queued for recording.  An exception stops the whole run. -/
def runApps (fuel : Nat) :
    List (String × List String × List Mutation) → RunState → RunState
  | [], rs => rs
  | (app_label, labels, muts) :: rest, rs =>
    if muts.isEmpty then runApps fuel rest rs
    else
      match (appLoop fuel app_label muts 0 rs.loop).failure with
      | some _ =>
        { rs with loop := appLoop fuel app_label muts 0 rs.loop,
                  evolution_required := true }
      | none =>
        runApps fuel rest
          { loop := appLoop fuel app_label muts 0 rs.loop,
            evolution_required := true,
            new_evolutions := rs.new_evolutions ++
              labels.map (fun l => (app_label, l)) }

/-- Modelled from the spec: per-model diff emptiness, from the Differ of
django_evolution/diff.py (not among the sources): no added, deleted or
changed field and an unchanged meta block. -/
def modelDiffEmpty (old_model new_model : ModelSig) : Bool :=
  (specModelDiff old_model new_model).added_fields.isEmpty &&
  (specModelDiff old_model new_model).deleted_fields.isEmpty &&
  (specModelDiff old_model new_model).changed_fields.isEmpty &&
  decide (old_model.unique_together = new_model.unique_together) &&
  decide (old_model.meta_rest = new_model.meta_rest)

/-- Modelled from the spec: project-level diff emptiness — every model of
every application present on either side must be present on both sides
with an empty per-model diff. -/
def projDiffEmpty (old_proj new_proj : ProjSig) : Bool :=
  (old_proj ++ new_proj).all (fun pa =>
    match dlookup pa.1 old_proj, dlookup pa.1 new_proj with
    | some ao, some an =>
      (ao ++ an).all (fun pm =>
        match dlookup pm.1 ao, dlookup pm.1 an with
        | some mo, some mn => modelDiffEmpty mo mn
        | _, _ => false)
    | _, _ => false)

/-- ASCII rendering of `confirm.lower()` (evolve.py line 145): the
library string-lowering delegates to runtime character tables, so the
ASCII case the prompt needs is written out. -/
def asciiLowerChar (c : Char) : Char :=
  if c.isUpper then Char.ofNat (c.toNat + 32) else c

/-- ASCII string lowering. -/
def asciiLower (s : String) : String :=
  String.mk (s.data.map asciiLowerChar)

def initRun (database_sig : ProjSig) : RunState :=
  { loop := { proj := database_sig, sql := [], simulated := true,
              trace := [], failure := none },
    evolution_required := false, new_evolutions := [] }

/-- The decision tail of Command.handle after the application loop
(evolve.py lines 115-180). -/
def evolveFinish (rs : RunState) (current_sig : ProjSig) (serialized : String)
    (interactive execute : Bool) (confirm : String)
    (stepOk : List Stmt → Stmt → Bool) (db : HistoryDB) : HistoryDB × Nat :=
  match rs.loop.failure with
  | some _ => (db, 1)
  | none =>
    if rs.loop.simulated && !projDiffEmpty rs.loop.proj current_sig then
      (db, 1)
    else if rs.evolution_required && execute then
      if asciiLower (if interactive then confirm else "yes") == "yes" then
        executeEvolutions stepOk db rs.loop.sql serialized rs.new_evolutions
      else
        (db, 0)
    else
      (db, 0)

/-- Command.handle (evolve.py lines 75-180) after a successful baseline
load, over the per-application mutation lists (hint-generated or from
stored scripts).  Exit status: 1 via `sys.exit(1)` on a simulation
failure (line 117) or a failed post-simulation verification (line 124),
1 from the execute block on a statement failure, and 0 otherwise —
including the cancellation path (lines 171-172), which only prints
`Evolution cancelled.` and returns.  An exception other than
`SimulationFailure` escapes `handle` and ends the interpreter with a
traceback, also a non-zero status, rendered as 1 here. -/
def evolveHandle (fuel : Nat)
    (apps : List (String × List String × List Mutation))
    (database_sig current_sig : ProjSig) (serialized : String)
    (interactive execute : Bool) (confirm : String)
    (stepOk : List Stmt → Stmt → Bool) (db : HistoryDB) : HistoryDB × Nat :=
  evolveFinish (runApps fuel apps (initRun database_sig)) current_sig
    serialized interactive execute confirm stepOk db

/-- One-field name rendering for the legacy statement descriptors. -/
def attrName : AttrValue → String
  | .str s => s
  | _ => ""

/-- The legacy `DeleteField` of django_evolution/mutation.py (lines
74-144): `pre_mutate` reads the field's stored `internal_type` (a
missing model raises `KeyError` outside its try block; a missing field
or attribute becomes an `EvolutionException`), then `mutate` dispatches:
the many-to-many path (`mutate_table`, lines 141-144) produces the
table drop and then pops the whole model from the application signature;
the column path leaves the signature alone. -/
def legacy_DeleteField_mutate (model_name field_name : String)
    (app_sig : AppSig) : Except Err (List Stmt × AppSig) :=
  match dlookup model_name app_sig with
  | none => .error (.keyError model_name)
  | some model_sig =>
    match dlookup field_name model_sig.fields with
    | none => .error (.evolutionException "Pre-Mutate Error: cannot find the field")
    | some fs =>
      match dlookup "internal_type" fs with
      | none => .error (.evolutionException "Pre-Mutate Error: cannot find the field")
      | some it =>
        if it == .str "ManyToManyField" then
          match dlookup "m2m_db_table" fs with
          | none =>
            .error (.evolutionException "Pre-Mutate Error: cannot find the field")
          | some tbl =>
            .ok ([Stmt.deleteTable (attrName tbl)], dpop model_name app_sig)
        else
          match dlookup "column" fs with
          | none =>
            .error (.evolutionException "Pre-Mutate Error: cannot find the field")
          | some _ =>
            .ok ([Stmt.deleteColumn model_name field_name], app_sig)

/-- The application signature used by the C5 counterexample for the
legacy many-to-many DeleteField. -/
def legacyAppC5 : AppSig :=
  [("Gallery",
    { fields :=
        [("id", [("internal_type", .str "AutoField"), ("column", .str "id"),
                 ("primary_key", .bool true)]),
         ("photos", [("internal_type", .str "ManyToManyField"),
                     ("m2m_db_table", .str "gallery_photos")])],
      unique_together := [], meta_rest := [] })]

/-- A project whose only field stores a `related_model` entry holding
`None`: `create_field` pops the entry and never restores it. -/
def projNoneRM : ProjSig :=
  [("app1", [("M",
    { fields := [("x", [("field_type", .ftype .IntegerField),
                        ("related_model", .pyNone)])],
      unique_together := [], meta_rest := [] })])]

/-- The result signature of `DeleteField.mutate` on `projNoneRM`: the
`related_model` entry is gone. -/
def projNoneRMAfter : ProjSig :=
  [("app1", [("M",
    { fields := [("x", [("field_type", .ftype .IntegerField)])],
      unique_together := [], meta_rest := [] })])]

/-- C5 counterexample: mutate does not always leave the signature equal
to what it was, and the pipeline does not call simulate earlier than
mutate.  (1) The legacy many-to-many `DeleteField.mutate`
(mutation.py line 143) pops the whole model from the application
signature.  (2) Even in mutations.py, `DeleteField.mutate` on a field
whose attributes map `related_model` to `None` silently drops that
entry (create_field, lines 29-40).  (3) In the pipeline loop each
mutation's `mutate` call precedes its `simulate` call. -/
theorem mutate_frame_counterexample :
    (legacy_DeleteField_mutate "Gallery" "photos" legacyAppC5 =
        .ok ([Stmt.deleteTable "gallery_photos"], dpop "Gallery" legacyAppC5) ∧
      dlookup "Gallery" (dpop "Gallery" legacyAppC5) = none ∧
      dpop "Gallery" legacyAppC5 ≠ legacyAppC5) ∧
    (DeleteField_mutate 20 "M" "x" "app1" projNoneRM =
        .ok (projNoneRMAfter, [Stmt.deleteColumn "M" "x"]) ∧
      ¬ ProjEquiv projNoneRMAfter projNoneRM) ∧
    (loopStep 20 "app1" 0 (Mutation.deleteField "M" "x")
        { proj := projNoneRM, sql := [], simulated := true, trace := [],
          failure := none }).trace = [.mutateCall 0, .simulateCall 0] := by
  refine ⟨⟨rfl, by decide, by decide⟩, ⟨rfl, ?_⟩, by decide⟩
  intro h
  exact (((h "app1") "M").1 "x") "related_model"

/-- C5 (amended): for every mutation variant of the current mutations
module, a `mutate` that completes without error returns its statements
and leaves the project signature dictionary-equal to what it was,
provided no reachable field-attribute dictionary (in the signature or in
an AddField's own keyword attributes) maps `related_model` to a falsy
value; and in the pipeline loop every mutation's `simulate` call comes
separately, immediately after that mutation's `mutate` call — never
earlier. -/
theorem mutate_frame_and_order :
    (∀ fuel m app_label database proj proj2 stmts,
      cleanProjb proj = true → cleanMutb m = true →
      mutateMutation fuel m app_label database proj = .ok (proj2, stmts) →
      ProjEquiv proj2 proj) ∧
    (∀ fuel app_label i m st,
      (loopStep fuel app_label i m st).trace = st.trace ++ [.mutateCall i] ∨
      (loopStep fuel app_label i m st).trace =
        st.trace ++ [.mutateCall i, .simulateCall i]) := by
  constructor
  · intro fuel m app_label database proj proj2 stmts hcb hcm h
    exact mutateMutation_preserves fuel m app_label database proj proj2 stmts
      (cleanProjb_clean proj hcb) hcm h
  · intro fuel app_label i m st
    rw [loopStep]
    split
    · exact Or.inl rfl
    · split
      · exact Or.inr rfl
      · exact Or.inr rfl
      · exact Or.inr rfl

/-- C5 witness: deleting the `name` field of the witness project keeps
the signature dictionary-equal. -/
theorem mutate_frame_and_order_witness :
    ∃ p s, mutateMutation 20 (.deleteField "TestModel" "name") "testapp"
        .pyNone projPK = .ok (p, s) ∧ ProjEquiv p projPK :=
  ⟨_, _, rfl, mutate_frame_and_order.1 20 (.deleteField "TestModel" "name")
    "testapp" .pyNone projPK _ _ (by decide) (by decide) rfl⟩

/-- The empty history store used by the C8 evaluations. -/
def dbEmpty : HistoryDB := { applied := [], versions := [], evolutions := [] }

/-- C8 counterexample: a run that reaches the confirmation prompt and is
cancelled (`confirm = no`) exits with status 0 — the cancellation branch
only prints `Evolution cancelled.` and returns (evolve.py lines
171-172); the claim requires a non-zero status there. -/
theorem evolve_cancellation_exits_zero :
    evolveHandle 20
        [("testapp", ["my-evolution"],
          [Mutation.sqlMutation "tag" [.raw "X"] none])]
        projPK projPK "sig" true true "no" (fun _ _ => true) dbEmpty =
      (dbEmpty, 0) := by decide

/-- C8 (amended): the evolve command exits 0 on success and when no
evolution is required, and exits non-zero on a simulation failure, a
verification failure (non-empty post-simulation diff) and an execution
failure; user cancellation at the confirmation prompt, however, exits
with status 0. -/
theorem evolveFinish_exit (rs : RunState) (current_sig : ProjSig)
    (serialized : String) (interactive execute : Bool) (confirm : String)
    (stepOk : List Stmt → Stmt → Bool) (db : HistoryDB) :
    (evolveFinish rs current_sig serialized interactive execute confirm
      stepOk db).2 =
      if rs.loop.failure.isSome then 1
      else if rs.loop.simulated && !projDiffEmpty rs.loop.proj current_sig then 1
      else if rs.evolution_required && execute then
        (if asciiLower (if interactive then confirm else "yes") == "yes" then
          (if (runStatements stepOk db.applied rs.loop.sql).isSome then 0 else 1)
        else 0)
      else 0 := by
  rw [evolveFinish]
  cases hf : rs.loop.failure with
  | some e => simp [hf]
  | none =>
    simp only [hf, Option.isSome_none, Bool.false_eq_true, if_false]
    rw [executeEvolutions]
    repeat' split
    all_goals first | rfl | simp_all

/-- C8 (amended): the evolve command exits 0 on success and when no
evolution is required, exits 1 on a simulation failure (or any other
exception escaping the loop), on a verification failure (the run was
fully simulated and the post-simulation diff is non-empty) and on an
execution failure (a statement of a confirmed execute run raised); user
cancellation at the confirmation prompt, however, exits with status
0. -/
theorem evolve_exit_codes (fuel : Nat)
    (apps : List (String × List String × List Mutation))
    (database_sig current_sig : ProjSig) (serialized : String)
    (interactive execute : Bool) (confirm : String)
    (stepOk : List Stmt → Stmt → Bool) (db : HistoryDB) :
    (evolveHandle fuel apps database_sig current_sig serialized
      interactive execute confirm stepOk db).2 =
      if (runApps fuel apps (initRun database_sig)).loop.failure.isSome then 1
      else if (runApps fuel apps (initRun database_sig)).loop.simulated &&
          !projDiffEmpty (runApps fuel apps (initRun database_sig)).loop.proj
            current_sig then 1
      else if (runApps fuel apps (initRun database_sig)).evolution_required &&
          execute then
        (if asciiLower (if interactive then confirm else "yes") == "yes" then
          (if (runStatements stepOk db.applied
              (runApps fuel apps (initRun database_sig)).loop.sql).isSome
            then 0 else 1)
        else 0)
      else 0 :=
  evolveFinish_exit (runApps fuel apps (initRun database_sig)) current_sig
    serialized interactive execute confirm stepOk db

end DjangoEvolution
